import Mathlib

/-!
Shallow embedding of the stream-to-warehouse synchronization engine of
`pipelinewise-target-bigquery` (files `target_bigquery/db_sync.py` and
`target_bigquery/__init__.py`), together with theorems settling the claims
about its specification.

Conventions of the embedding:
* Python `dict`s are association lists (`List (String × α)`): lookup returns
  the first binding, update replaces the value of an existing key in place
  and otherwise appends (matching insertion-order semantics of `dict`).
* JSON values and JSON-schema documents are both represented by `JVal`.
  JSON numbers are embedded as integers; decimal payloads relevant to the
  numeric-clamping logic are modelled separately by `PyDecimal`.
* Fallible Python code (KeyError / TypeError / ValueError / re-raised
  exceptions) is embedded with `Except PyErr`.
* Wall-clock readings (`datetime.utcnow()`, `time.strftime`) are inputs of
  the model.
-/

namespace TargetBigquery

/-- Errors raised by the embedded code paths. -/
inductive PyErr where
  /-- `KeyError` / `IndexError` style lookup failure. -/
  | keyError : PyErr
  /-- `TypeError` / `AttributeError` style failure. -/
  | typeError : PyErr
  /-- `ValueError('Duplicate column name produced in schema: ...')` in
  `flatten_schema`. -/
  | duplicateColumn (name : String) : PyErr
  /-- Protocol errors raised by `persist_lines` (`Exception(...)`). -/
  | protocolError : PyErr
  /-- The re-raised exception of `record_primary_key_string` when a primary
  key column is missing from the flattened record. -/
  | missingPrimaryKey : PyErr
  deriving DecidableEq, Repr

/-- JSON-ish values: the payloads of records, state messages and JSON
schemas.  Numbers are embedded as integers. -/
inductive JVal where
  | null : JVal
  | b (x : Bool) : JVal
  | i (n : Int) : JVal
  | s (str : String) : JVal
  | arr (xs : List JVal) : JVal
  | obj (fields : List (String × JVal)) : JVal
  deriving Repr

mutual

def JVal.decEq : (a b : JVal) → Decidable (a = b)
  | .null, .null => .isTrue rfl
  | .b x, .b y =>
    if h : x = y then .isTrue (by rw [h]) else .isFalse (by simp [h])
  | .i x, .i y =>
    if h : x = y then .isTrue (by rw [h]) else .isFalse (by simp [h])
  | .s x, .s y =>
    if h : x = y then .isTrue (by rw [h]) else .isFalse (by simp [h])
  | .arr xs, .arr ys =>
    match JVal.decEqList xs ys with
    | .isTrue h => .isTrue (by rw [h])
    | .isFalse h => .isFalse (by simp [h])
  | .obj xs, .obj ys =>
    match JVal.decEqObj xs ys with
    | .isTrue h => .isTrue (by rw [h])
    | .isFalse h => .isFalse (by simp [h])
  | .null, .b _ => .isFalse (fun h => nomatch h)
  | .null, .i _ => .isFalse (fun h => nomatch h)
  | .null, .s _ => .isFalse (fun h => nomatch h)
  | .null, .arr _ => .isFalse (fun h => nomatch h)
  | .null, .obj _ => .isFalse (fun h => nomatch h)
  | .b _, .null => .isFalse (fun h => nomatch h)
  | .b _, .i _ => .isFalse (fun h => nomatch h)
  | .b _, .s _ => .isFalse (fun h => nomatch h)
  | .b _, .arr _ => .isFalse (fun h => nomatch h)
  | .b _, .obj _ => .isFalse (fun h => nomatch h)
  | .i _, .null => .isFalse (fun h => nomatch h)
  | .i _, .b _ => .isFalse (fun h => nomatch h)
  | .i _, .s _ => .isFalse (fun h => nomatch h)
  | .i _, .arr _ => .isFalse (fun h => nomatch h)
  | .i _, .obj _ => .isFalse (fun h => nomatch h)
  | .s _, .null => .isFalse (fun h => nomatch h)
  | .s _, .b _ => .isFalse (fun h => nomatch h)
  | .s _, .i _ => .isFalse (fun h => nomatch h)
  | .s _, .arr _ => .isFalse (fun h => nomatch h)
  | .s _, .obj _ => .isFalse (fun h => nomatch h)
  | .arr _, .null => .isFalse (fun h => nomatch h)
  | .arr _, .b _ => .isFalse (fun h => nomatch h)
  | .arr _, .i _ => .isFalse (fun h => nomatch h)
  | .arr _, .s _ => .isFalse (fun h => nomatch h)
  | .arr _, .obj _ => .isFalse (fun h => nomatch h)
  | .obj _, .null => .isFalse (fun h => nomatch h)
  | .obj _, .b _ => .isFalse (fun h => nomatch h)
  | .obj _, .i _ => .isFalse (fun h => nomatch h)
  | .obj _, .s _ => .isFalse (fun h => nomatch h)
  | .obj _, .arr _ => .isFalse (fun h => nomatch h)

def JVal.decEqList : (xs ys : List JVal) → Decidable (xs = ys)
  | [], [] => .isTrue rfl
  | x :: xs, y :: ys =>
    match JVal.decEq x y, JVal.decEqList xs ys with
    | .isTrue h1, .isTrue h2 => .isTrue (by rw [h1, h2])
    | .isFalse h1, _ => .isFalse (by simp [h1])
    | _, .isFalse h2 => .isFalse (by simp [h2])
  | [], _ :: _ => .isFalse (fun h => nomatch h)
  | _ :: _, [] => .isFalse (fun h => nomatch h)

def JVal.decEqObj : (xs ys : List (String × JVal)) → Decidable (xs = ys)
  | [], [] => .isTrue rfl
  | (k1, v1) :: xs, (k2, v2) :: ys =>
    match String.decEq k1 k2, JVal.decEq v1 v2, JVal.decEqObj xs ys with
    | .isTrue h0, .isTrue h1, .isTrue h2 => .isTrue (by rw [h0, h1, h2])
    | .isFalse h0, _, _ => .isFalse (by simp [h0])
    | _, .isFalse h1, _ => .isFalse (by simp [h1])
    | _, _, .isFalse h2 => .isFalse (by simp [h2])
  | [], _ :: _ => .isFalse (fun h => nomatch h)
  | _ :: _, [] => .isFalse (fun h => nomatch h)

end

instance : DecidableEq JVal := JVal.decEq

/-! ### Python dict operations -/

/-- First-match association-list lookup: Python `d[k]` / `d.get(k)`. -/
def pyGet (l : List (String × α)) (k : String) : Option α :=
  match l with
  | [] => none
  | (k', v) :: rest => if k' = k then some v else pyGet rest k

/-- `d.get(k, dflt)`. -/
def pyGetD (l : List (String × α)) (k : String) (dflt : α) : α :=
  (pyGet l k).getD dflt

/-- `d[k] = v` on a Python dict: replace the first binding of `k` in place,
otherwise append the new binding (insertion order). -/
def pySet (l : List (String × α)) (k : String) (v : α) : List (String × α) :=
  match l with
  | [] => [(k, v)]
  | (k', v') :: rest => if k' = k then (k, v) :: rest else (k', v') :: pySet rest k v

/-- The keys of a dict, in order (`d.keys()`). -/
def pyKeys (l : List (String × α)) : List String := l.map (·.1)

/-- The values of a dict, in order (`d.values()`). -/
def pyValues (l : List (String × α)) : List α := l.map (·.2)

/-- `dict(items)`: first occurrence keeps its position, last value wins. -/
def pyDict (l : List (String × α)) : List (String × α) :=
  l.foldl (fun acc (kv : String × α) => pySet acc kv.1 kv.2) []

@[simp] theorem pyKeys_nil : pyKeys ([] : List (String × α)) = [] := rfl

@[simp] theorem pyKeys_cons (k : String) (v : α) (l : List (String × α)) :
    pyKeys ((k, v) :: l) = k :: pyKeys l := rfl

@[simp] theorem pyKeys_append (l l' : List (String × α)) :
    pyKeys (l ++ l') = pyKeys l ++ pyKeys l' := by
  simp [pyKeys]

theorem pyGet_pySet_self (l : List (String × α)) (k : String) (v : α) :
    pyGet (pySet l k v) k = some v := by
  induction l with
  | nil => simp [pySet, pyGet]
  | cons hd tl ih =>
    obtain ⟨k', v'⟩ := hd
    by_cases h : k' = k <;> simp [pySet, pyGet, h, ih]

theorem pyGet_pySet_ne (l : List (String × α)) (k k' : String) (v : α) (h : k ≠ k') :
    pyGet (pySet l k v) k' = pyGet l k' := by
  induction l with
  | nil => simp [pySet, pyGet, h]
  | cons hd tl ih =>
    obtain ⟨k0, v0⟩ := hd
    by_cases h0 : k0 = k
    · subst h0
      simp [pySet, pyGet, h]
    · simp [pySet, pyGet, h0, ih]

theorem pyKeys_pySet_of_mem (l : List (String × α)) (k : String) (v : α)
    (h : k ∈ pyKeys l) : pyKeys (pySet l k v) = pyKeys l := by
  induction l with
  | nil => simp at h
  | cons hd tl ih =>
    obtain ⟨k0, v0⟩ := hd
    by_cases h0 : k0 = k
    · subst h0; simp [pySet]
    · have hmem : k ∈ pyKeys tl := by
        rcases List.mem_cons.mp (by simpa using h) with h1 | h1
        · exact absurd h1.symm h0
        · exact h1
      simp [pySet, h0, ih hmem]

theorem pyKeys_pySet_of_not_mem (l : List (String × α)) (k : String) (v : α)
    (h : k ∉ pyKeys l) : pyKeys (pySet l k v) = pyKeys l ++ [k] := by
  induction l with
  | nil => simp [pySet]
  | cons hd tl ih =>
    obtain ⟨k0, v0⟩ := hd
    have hne : k0 ≠ k := by
      intro hk; exact h (by simp [hk])
    have htl : k ∉ pyKeys tl := by
      intro hk; exact h (by simp [hk])
    simp [pySet, hne, ih htl]

theorem pyGet_isSome_iff_mem_keys (l : List (String × α)) (k : String) :
    (pyGet l k).isSome ↔ k ∈ pyKeys l := by
  induction l with
  | nil => simp [pyGet]
  | cons hd tl ih =>
    obtain ⟨k0, v0⟩ := hd
    by_cases h : k0 = k
    · simp [pyGet, h]
    · simp only [pyGet, h, if_false, pyKeys_cons, List.mem_cons, ih]
      constructor
      · exact Or.inr
      · rintro (h1 | h1)
        · exact absurd h1.symm h
        · exact h1

theorem pyGet_eq_none_iff_not_mem_keys (l : List (String × α)) (k : String) :
    pyGet l k = none ↔ k ∉ pyKeys l := by
  rw [← pyGet_isSome_iff_mem_keys]
  cases pyGet l k <;> simp

theorem length_pySet_of_mem (l : List (String × α)) (k : String) (v : α)
    (h : k ∈ pyKeys l) : (pySet l k v).length = l.length := by
  have := pyKeys_pySet_of_mem l k v h
  have hlen : (pyKeys (pySet l k v)).length = (pyKeys l).length := by rw [this]
  simpa [pyKeys] using hlen

theorem length_pySet_of_not_mem (l : List (String × α)) (k : String) (v : α)
    (h : k ∉ pyKeys l) : (pySet l k v).length = l.length + 1 := by
  have := pyKeys_pySet_of_not_mem l k v h
  have hlen : (pyKeys (pySet l k v)).length = (pyKeys l).length + 1 := by
    rw [this]; simp
  simpa [pyKeys] using hlen

/-! ### Character and string helpers

Python string methods and the regular expressions of `db_sync.py` operate on
Unicode code points, matched by Lean `Char`.  The regex classes `[a-z]`,
`[A-Z]`, `[0-9]`, `[^a-zA-Z0-9_]` are code-point ranges. -/

/-- Code point of a backtick. -/
def backtickChar : Char := Char.ofNat 96

/-- Regex class `[a-z]`. -/
def isLowerAlpha (c : Char) : Bool := 97 ≤ c.toNat && c.toNat ≤ 122

/-- Regex class `[A-Z]`. -/
def isUpperAlpha (c : Char) : Bool := 65 ≤ c.toNat && c.toNat ≤ 90

/-- Regex class `[0-9]`. -/
def isDigitCh (c : Char) : Bool := 48 ≤ c.toNat && c.toNat ≤ 57

/-- The class `[a-zA-Z0-9_]` of `safe_column_name`'s regex. -/
def isWordChar (c : Char) : Bool :=
  isLowerAlpha c || isUpperAlpha c || isDigitCh c || c.toNat = 95

/-- ASCII lower-casing of a character (`str.lower()`; after
`safe_column_name`'s substitution only ASCII word characters remain, where
Python's Unicode `lower()` agrees with the ASCII one). -/
def asciiLower (c : Char) : Char :=
  if isUpperAlpha c then Char.ofNat (c.toNat + 32) else c

/-- ASCII upper-casing of a character (`str.upper()` on the segment
characters reached through `inflection.camelize`). -/
def asciiUpper (c : Char) : Char :=
  if isLowerAlpha c then Char.ofNat (c.toNat - 32) else c

theorem charOfNat_toNat (n : Nat) (h2 : n ≤ 1000) : (Char.ofNat n).toNat = n := by
  have hv : n.isValidChar := Or.inl (by omega)
  simp [Char.ofNat, hv, Char.toNat, Char.ofNatAux, UInt32.toNat]

/-- `str.lower()` over ASCII. -/
def asciiLowerStr (s : String) : String := String.mk (s.data.map asciiLower)

/--
`safe_column_name(name, quotes=False)` from `db_sync.py`:
```python
name = name.replace('`', '')
name = re.sub('[^a-zA-Z0-9_]', '_', name)
return '{}'.format(name).lower()
```
-/
def safeColumnName (name : String) : String :=
  String.mk
    (((name.data.filter (fun c => c ≠ backtickChar)).map
        (fun c => if isWordChar c then c else Char.ofNat 95)).map asciiLower)

theorem isWordChar_asciiLower_of_isWordChar (c : Char) (h : isWordChar c) :
    isWordChar (asciiLower c) ∧ isUpperAlpha (asciiLower c) = false := by
  by_cases hu : isUpperAlpha c
  · have hle : c.toNat + 32 ≤ 1000 := by
      simp [isUpperAlpha] at hu; omega
    simp only [asciiLower, hu, if_true]
    have := charOfNat_toNat (c.toNat + 32) hle
    simp [isUpperAlpha] at hu
    constructor
    · simp [isWordChar, isLowerAlpha, this]; omega
    · simp [isUpperAlpha, this]; omega
  · simp only [asciiLower, hu, if_false]
    refine ⟨h, ?_⟩
    simp at hu; simp [hu]

/-- Characters produced by `safeColumnName` are lower-case word characters. -/
theorem safeColumnName_chars (name : String) (c : Char)
    (h : c ∈ (safeColumnName name).data) :
    isWordChar c ∧ isUpperAlpha c = false := by
  simp only [safeColumnName] at h
  simp only [List.mem_map] at h
  obtain ⟨c1, hc1, rfl⟩ := h
  obtain ⟨c0, _, rfl⟩ := hc1
  by_cases hw : isWordChar c0
  · simpa [hw] using isWordChar_asciiLower_of_isWordChar c0 hw
  · have h95 : isWordChar (Char.ofNat 95) := by decide
    simpa [hw] using isWordChar_asciiLower_of_isWordChar (Char.ofNat 95) h95

/-- On strings entirely made of lower-case word characters, `safeColumnName`
is the identity — in particular it is idempotent. -/
theorem safeColumnName_fixed (name : String)
    (h : ∀ c ∈ name.data, isWordChar c ∧ isUpperAlpha c = false) :
    safeColumnName name = name := by
  obtain ⟨l⟩ := name
  simp only [safeColumnName]
  congr 1
  induction l with
  | nil => simp
  | cons hd tl ih =>
    have hhd := h hd (by simp)
    have hbt : hd ≠ backtickChar := by
      have := hhd.1
      intro he; subst he
      simp [isWordChar, isLowerAlpha, isUpperAlpha, isDigitCh, backtickChar,
        charOfNat_toNat] at this
    have htl := ih (fun c hc => h c (by simp [hc]))
    simp only [List.filter_cons, hbt, decide_eq_true_eq, List.map_cons]
    rw [if_pos (by simp [hbt])]
    simp only [List.map_cons, htl]
    congr 1
    simp [hhd.1, asciiLower, hhd.2]

theorem safeColumnName_idem (name : String) :
    safeColumnName (safeColumnName name) = safeColumnName name :=
  safeColumnName_fixed _ (safeColumnName_chars name)

/-! ### Python `str()` / `repr()` of JSON values

Used by `record_primary_key_string` (`str(flatten[p.lower()])`).  String
escaping inside `repr` is simplified to plain quoting; primary keys are
scalars in practice. -/

mutual

def pyRepr : JVal → String
  | .null => "None"
  | .b true => "True"
  | .b false => "False"
  | .i n => toString n
  | .s str => "\x27" ++ str ++ "\x27"
  | .arr xs => "[" ++ pyReprList xs ++ "]"
  | .obj fs => "\x7b" ++ pyReprObj fs ++ "\x7d"

def pyReprList : List JVal → String
  | [] => ""
  | [x] => pyRepr x
  | x :: rest => pyRepr x ++ ", " ++ pyReprList rest

def pyReprObj : List (String × JVal) → String
  | [] => ""
  | [(k, v)] => "\x27" ++ k ++ "\x27: " ++ pyRepr v
  | (k, v) :: rest => "\x27" ++ k ++ "\x27: " ++ pyRepr v ++ ", " ++ pyReprObj rest

end

/-- Python `str(v)`. -/
def pyStr : JVal → String
  | .s str => str
  | v => pyRepr v

/-! ### `inflection.camelize` and `flatten_key`

`inflection.camelize(string)` is
`re.sub(r"(?:^|_)(.)", lambda m: m.group(1).upper(), string)`: at position 0
the `^` branch consumes one character and upper-cases it; afterwards every
`_c` pair is replaced by upper-case `c`.  `(.)` does not match a newline. -/

/-- The post-position-0 scanning of `camelize`'s regex substitution. -/
def camelizeScan : List Char → List Char
  | [] => []
  | [c] => [c]
  | c :: c2 :: rest =>
    if c.toNat = 95 ∧ c2.toNat ≠ 10 then asciiUpper c2 :: camelizeScan rest
    else c :: camelizeScan (c2 :: rest)

/-- `inflection.camelize(string)` (with `uppercase_first_letter=True`). -/
def camelize (s : String) : String :=
  match s.data with
  | [] => ""
  | c :: rest =>
    if c.toNat = 10 then String.mk (c :: camelizeScan rest)
    else String.mk (asciiUpper c :: camelizeScan rest)

/-- `re.sub(r'[a-z]', '', s)`. -/
def removeLowerAlpha (s : String) : String :=
  String.mk (s.data.filter (fun c => !(isLowerAlpha c)))

/--
One abbreviation step of `flatten_key`'s loop body applied to a segment:
```python
reduced_key = re.sub(r'[a-z]', '', inflection.camelize(inflected_key[reducer_index]))
inflected_key[reducer_index] = \
    (reduced_key if len(reduced_key) > 1 else inflected_key[reducer_index][0:3]).lower()
```
-/
def abbrevSegment (seg : String) : String :=
  let reduced := removeLowerAlpha (camelize seg)
  asciiLowerStr (if reduced.length > 1 then reduced else seg.take 3)

/--
The `while` loop of `flatten_key`:
```python
while len(sep.join(inflected_key)) >= 255 and reducer_index < len(inflected_key):
    ... abbreviate segment reducer_index ...
    reducer_index += 1
```
-/
def flattenKeyLoop (inflected : List String) (i : Nat) (sep : String) : List String :=
  if 255 ≤ (sep.intercalate inflected).length ∧ i < inflected.length then
    flattenKeyLoop (inflected.set i (abbrevSegment (inflected.getD i ""))) (i + 1) sep
  else inflected
termination_by inflected.length - i
decreasing_by simp [List.length_set]; omega

/-- `flatten_key(k, parent_key, sep)` from `db_sync.py`. -/
def flattenKey (k : String) (parentKey : List String) (sep : String) : String :=
  sep.intercalate (flattenKeyLoop (parentKey ++ [k]) 0 sep)

/-- The closed form of the loop state: the first `j` segments abbreviated,
the rest untouched. -/
def abbrevUpTo (full : List String) (j : Nat) : List String :=
  (full.take j).map abbrevSegment ++ full.drop j

@[simp] theorem abbrevUpTo_zero (full : List String) : abbrevUpTo full 0 = full := by
  simp [abbrevUpTo]

theorem abbrevUpTo_length (full : List String) (j : Nat) :
    (abbrevUpTo full j).length = full.length := by
  simp [abbrevUpTo]
  omega

theorem abbrevUpTo_getD (full : List String) (i : Nat) (h : i < full.length) :
    (abbrevUpTo full i).getD i "" = full.getD i "" := by
  have hlen : ((full.take i).map abbrevSegment).length = i := by
    simp; omega
  unfold abbrevUpTo
  rw [List.getD_eq_getElem?_getD, List.getD_eq_getElem?_getD,
    List.getElem?_append_right (le_of_eq hlen), hlen, Nat.sub_self,
    List.getElem?_drop, Nat.add_zero]

theorem abbrevUpTo_set (full : List String) (i : Nat) (h : i < full.length) :
    (abbrevUpTo full i).set i (abbrevSegment (full.getD i "")) = abbrevUpTo full (i + 1) := by
  have hlen : ((full.take i).map abbrevSegment).length = i := by
    simp; omega
  have hdrop : full.drop i = full[i] :: full.drop (i + 1) :=
    List.drop_eq_getElem_cons h
  have htake : full.take (i + 1) = full.take i ++ [full[i]] := by
    rw [List.take_succ]
    simp [List.getElem?_eq_getElem h]
  have hgetD : full.getD i "" = full[i] := by
    simp [List.getD_eq_getElem?_getD, List.getElem?_eq_getElem h]
  simp only [abbrevUpTo, htake, hgetD, List.map_append, List.map_cons, List.map_nil]
  rw [List.set_append_right _ _ (le_of_eq hlen), hlen, Nat.sub_self]
  rw [List.append_assoc]
  congr 1
  rw [hdrop, List.set_cons_zero, List.singleton_append]

theorem flattenKeyLoop_spec (full : List String) (sep : String) :
    ∀ i, i ≤ full.length →
    ∃ j, i ≤ j ∧ j ≤ full.length ∧
      flattenKeyLoop (abbrevUpTo full i) i sep = abbrevUpTo full j ∧
      (∀ m, i ≤ m → m < j → 255 ≤ (sep.intercalate (abbrevUpTo full m)).length) ∧
      (j < full.length → (sep.intercalate (abbrevUpTo full j)).length < 255) := by
  have main : ∀ fuel i, full.length - i ≤ fuel → i ≤ full.length →
      ∃ j, i ≤ j ∧ j ≤ full.length ∧
        flattenKeyLoop (abbrevUpTo full i) i sep = abbrevUpTo full j ∧
        (∀ m, i ≤ m → m < j → 255 ≤ (sep.intercalate (abbrevUpTo full m)).length) ∧
        (j < full.length → (sep.intercalate (abbrevUpTo full j)).length < 255) := by
    intro fuel
    induction fuel with
    | zero =>
      intro i hfuel hle
      have hi : i = full.length := by omega
      refine ⟨i, le_refl i, hle, ?_, ?_, ?_⟩
      · rw [flattenKeyLoop]
        have : ¬(255 ≤ (sep.intercalate (abbrevUpTo full i)).length ∧
            i < (abbrevUpTo full i).length) := by
          rw [abbrevUpTo_length]; omega
        simp [this]
      · intro m h1 h2; omega
      · intro h; omega
    | succ fuel ih =>
      intro i hfuel hle
      by_cases hstop : 255 ≤ (sep.intercalate (abbrevUpTo full i)).length ∧ i < full.length
      · have hlt : i < full.length := hstop.2
        have hstep : flattenKeyLoop (abbrevUpTo full i) i sep =
            flattenKeyLoop (abbrevUpTo full (i + 1)) (i + 1) sep := by
          rw [flattenKeyLoop]
          have hcond : 255 ≤ (sep.intercalate (abbrevUpTo full i)).length ∧
              i < (abbrevUpTo full i).length := by
            rw [abbrevUpTo_length]; exact hstop
          rw [if_pos hcond, abbrevUpTo_getD full i hlt, abbrevUpTo_set full i hlt]
        obtain ⟨j, hj1, hj2, hj3, hj4, hj5⟩ := ih (i + 1) (by omega) (by omega)
        refine ⟨j, by omega, hj2, by rw [hstep, hj3], ?_, hj5⟩
        intro m h1 h2
        by_cases hm : m = i
        · subst hm; exact hstop.1
        · exact hj4 m (by omega) h2
      · refine ⟨i, le_refl i, hle, ?_, ?_, ?_⟩
        · rw [flattenKeyLoop]
          have : ¬(255 ≤ (sep.intercalate (abbrevUpTo full i)).length ∧
              i < (abbrevUpTo full i).length) := by
            rw [abbrevUpTo_length]; exact hstop
          simp [this]
        · intro m h1 h2; omega
        · intro h
          by_contra hcon
          exact hstop ⟨by omega, h⟩
  intro i hle
  exact main (full.length - i) i (le_refl _) hle

/-- A 260-character column name consisting of digits only: abbreviation
removes only lower-case letters, so it cannot shrink this segment. -/
def digitString260 : String := String.mk (List.replicate 260 (Char.ofNat 49))

set_option maxRecDepth 40000 in
/--
**C8, counterexample.**  The claim states that whenever the fully qualified
flattened name would exceed the maximum length of 255, the earliest path
segments are abbreviated *until the name fits within the limit*.  For the
single-segment path `digitString260` (260 digits), the joined name exceeds
255, the abbreviation step leaves the all-digit segment unchanged
(`camelize` and the `[a-z]` removal touch only letters), the loop runs out
of segments, and the resulting name still has 260 characters: it never fits
within the limit.
-/
theorem c8_name_length_counterexample :
    255 < ("__".intercalate [digitString260]).length ∧
      ¬ (flattenKey digitString260 [] "__").length ≤ 255 := by
  have habb : ([digitString260].set 0 (abbrevSegment ([digitString260].getD 0 ""))) =
      [digitString260] := by decide
  have hres : flattenKey digitString260 [] "__" = digitString260 := by
    unfold flattenKey
    simp only [List.nil_append]
    rw [flattenKeyLoop, if_pos (by constructor <;> decide), habb,
      flattenKeyLoop, if_neg (by intro hc; exact absurd hc.2 (by decide))]
    decide
  refine ⟨by decide, ?_⟩
  rw [hres]
  decide

/--
**C8, amended.**  `flatten_key` abbreviates the earliest path segments while
the joined name is at least 255 characters long and segments remain,
stopping early as soon as the name drops below 255; a name already shorter
than 255 characters is returned unchanged; the result is always of the
closed deterministic form `abbrevUpTo full j` (the first `j` segments
abbreviated, the rest untouched) for the least such `j`, but when no
abbreviation can shrink the segments (for instance all-digit segments) the
resulting name may still be 255 characters or longer.
-/
theorem c8_name_length_amended (k : String) (parent : List String) (sep : String) :
    ((sep.intercalate (parent ++ [k])).length < 255 →
      flattenKey k parent sep = sep.intercalate (parent ++ [k])) ∧
    ∃ j, j ≤ (parent ++ [k]).length ∧
      flattenKey k parent sep = sep.intercalate (abbrevUpTo (parent ++ [k]) j) ∧
      (∀ m < j, 255 ≤ (sep.intercalate (abbrevUpTo (parent ++ [k]) m)).length) ∧
      (j < (parent ++ [k]).length →
        (sep.intercalate (abbrevUpTo (parent ++ [k]) j)).length < 255) := by
  obtain ⟨j, hj0, hjle, hrun, hmin, hstop⟩ :=
    flattenKeyLoop_spec (parent ++ [k]) sep 0 (Nat.zero_le _)
  rw [abbrevUpTo_zero] at hrun
  have hkey : flattenKey k parent sep = sep.intercalate (abbrevUpTo (parent ++ [k]) j) := by
    unfold flattenKey
    rw [hrun]
  constructor
  · intro hshort
    rcases Nat.eq_zero_or_pos j with hj | hj
    · subst hj
      rw [hkey, abbrevUpTo_zero]
    · exact absurd (hmin 0 (Nat.zero_le _) hj) (by simpa using Nat.not_le.mpr hshort)
  · exact ⟨j, hjle, hkey, fun m hm => hmin m (Nat.zero_le _) hm, hstop⟩

/-! ### `flatten_record` and `record_primary_key_string` -/

/--
The `items` list built by `flatten_record(d, parent_key, sep, level, max_level)`:
```python
for k, v in d.items():
    k = safe_column_name(k, quotes=False)
    new_key = flatten_key(k, parent_key, sep)
    if isinstance(v, collections.MutableMapping) and level < max_level:
        items.extend(flatten_record(v, parent_key + [k], sep=sep, level=level+1, max_level=max_level).items())
    else:
        items.append((new_key, v if type(v) is list or type(v) is dict else v))
```
(the trailing conditional expression is the identity on `v`).  The recursive
`flatten_record(...).items()` is `pyDict` of the recursive items, matching
`flattenRecord` below.
-/
def flattenRecordItems (l : List (String × JVal)) (parentKey : List String)
    (sep : String) (level maxLevel : Nat) : List (String × JVal) :=
  match l with
  | [] => []
  | (k0, v) :: rest =>
    let k := safeColumnName k0
    let newKey := flattenKey k parentKey sep
    (match v with
     | .obj fields =>
       if _h : level < maxLevel then
         pyDict (flattenRecordItems fields (parentKey ++ [k]) sep (level + 1) maxLevel)
       else [(newKey, v)]
     | _ => [(newKey, v)]) ++ flattenRecordItems rest parentKey sep level maxLevel
termination_by (maxLevel - level, sizeOf l)
decreasing_by
· exact Prod.Lex.left _ _ (by omega)
· exact Prod.Lex.right _ (by simp +arith)

/-- `flatten_record(d, parent_key, sep, level, max_level)`: the final
`dict(items)`. -/
def flattenRecord (d : List (String × JVal)) (parentKey : List String)
    (sep : String) (level maxLevel : Nat) : List (String × JVal) :=
  pyDict (flattenRecordItems d parentKey sep level maxLevel)

/--
`DbSync.record_primary_key_string(record)`:
```python
if len(self.stream_schema_message['key_properties']) == 0:
    return None
flatten = flatten_record(record, max_level=self.data_flattening_max_level)
try:
    key_props = [str(flatten[p.lower()]) for p in self.stream_schema_message['key_properties']]
except Exception as exc:
    logger.info(...)
    raise exc
return ','.join(key_props)
```
(`p.lower()` is modelled over ASCII case folding.)
-/
def recordPrimaryKeyString (keyProperties : List String) (maxLevel : Nat)
    (record : List (String × JVal)) : Except PyErr (Option String) :=
  if keyProperties.length = 0 then pure none
  else
    let flat := flattenRecord record [] "__" 0 maxLevel
    do
      let keyProps ← keyProperties.mapM (fun p =>
        match pyGet flat (asciiLowerStr p) with
        | some v => pure (pyStr v)
        | none => throw PyErr.missingPrimaryKey)
      pure (some (",".intercalate keyProps))

/-! ### `flatten_schema` -/

/-- Does the character list begin with the given needle? -/
def charsStartWith : List Char → List Char → Bool
  | [], _ => true
  | _ :: _, [] => false
  | c :: cs, d :: ds => c = d && charsStartWith cs ds

/-- Substring containment on character lists. -/
def charsContain (needle : List Char) : List Char → Bool
  | [] => needle.isEmpty
  | d :: ds => charsStartWith needle (d :: ds) || charsContain needle ds

/-- Python `needle in hay` for strings. -/
def strContainsSub (hay needle : String) : Bool := charsContain needle.data hay.data

/-- Python `needle in v`: substring test on strings, membership on lists,
key membership on dicts; `TypeError` otherwise. -/
def pyInStr (needle : String) (v : JVal) : Except PyErr Bool :=
  match v with
  | .s str => pure (strContainsSub str needle)
  | .arr xs => pure (xs.contains (.s needle))
  | .obj fs => pure ((pyGet fs needle).isSome)
  | _ => throw .typeError

/-- Python `v[0]`: head of a list (IndexError when empty), first character of
a string, `KeyError`/`TypeError` otherwise (dict keys here are strings, so
an integer subscript raises). -/
def pyIndex0 : JVal → Except PyErr JVal
  | .arr (x :: _) => pure x
  | .arr [] => throw .keyError
  | .s str =>
    match str.data with
    | c :: _ => pure (.s (String.mk [c]))
    | [] => throw .keyError
  | .obj _ => throw .keyError
  | _ => throw .typeError

theorem sizeOf_pyGet {l : List (String × JVal)} {k : String} {v : JVal}
    (h : pyGet l k = some v) : sizeOf v < sizeOf l := by
  induction l with
  | nil => simp [pyGet] at h
  | cons hd tl ih =>
    obtain ⟨k0, v0⟩ := hd
    by_cases h0 : k0 = k
    · simp only [pyGet, h0, if_pos] at h
      cases h
      simp
      omega
    · simp only [pyGet, h0, if_false] at h
      have := ih h
      simp
      omega

/-- The comparator of `sorted(items, key=lambda item: item[0])`: compare
items by their first component (the flattened column name). -/
def schemaItemLe (a b : String × JVal) : Bool := decide (a.1 ≤ b.1)

/-- First key occurring twice in adjacent positions; on the sorted items
list this is the key of the first `groupby` group of size greater than one. -/
def firstAdjacentDupKey : List (String × JVal) → Option String
  | (k1, _) :: (k2, v2) :: rest =>
    if k1 = k2 then some k1 else firstAdjacentDupKey ((k2, v2) :: rest)
  | _ => none

mutual

/--
`flatten_schema(d, parent_key=[], sep='__', level=0, max_level=0)`:
```python
items = []
if 'properties' not in d:
    return {}
for k, v in d['properties'].items():
    ...
sorted_items = sorted(items, key=lambda item: item[0])
for k, g in itertools.groupby(sorted_items, key=...):
    if len(list(g)) > 1:
        raise ValueError('Duplicate column name produced in schema: {}'.format(k))
return dict(sorted_items)
```
The containment check raises `TypeError` on non-container documents, and
`d['properties']` must be a mapping for `.items()`.
-/
def flattenSchemaE (d : JVal) (parentKey : List String) (sep : String)
    (level maxLevel : Nat) : Except PyErr (List (String × JVal)) :=
  match d with
  | .obj fields =>
    match hp : pyGet fields "properties" with
    | none => pure []
    | some (.obj pf) => do
      let items ← flattenSchemaItems pf parentKey sep level maxLevel
      let sorted := items.mergeSort schemaItemLe
      match firstAdjacentDupKey sorted with
      | some k => throw (.duplicateColumn k)
      | none => pure (pyDict sorted)
    | some _ => throw .typeError
  | .arr xs => if xs.contains (.s "properties") then throw .typeError else pure []
  | .s str => if strContainsSub str "properties" then throw .typeError else pure []
  | _ => throw .typeError
termination_by (maxLevel - level, sizeOf d, 1)
decreasing_by
apply Prod.Lex.right
apply Prod.Lex.left
have h1 := sizeOf_pyGet hp
simp at h1 ⊢
omega

/--
The loop body of `flatten_schema` over the `properties` items:
```python
for k, v in d['properties'].items():
    k = safe_column_name(k, quotes=False)
    new_key = flatten_key(k, parent_key, sep)
    if 'type' in v.keys():
        if 'object' in v['type'] and 'properties' in v and level < max_level:
            items.extend(flatten_schema(v, parent_key + [k], sep=sep, level=level+1, max_level=max_level).items())
        else:
            items.append((new_key, v))
    else:
        if len(v.values()) > 0:
            if list(v.values())[0][0]['type'] == 'string':
                list(v.values())[0][0]['type'] = ['null', 'string']
                items.append((new_key, list(v.values())[0][0]))
            elif list(v.values())[0][0]['type'] == 'array':
                ... ['null', 'array'] ...
            elif list(v.values())[0][0]['type'] == 'object':
                ... ['null', 'object'] ...
```
`v.keys()` / `v.values()` require `v` to be a mapping (`AttributeError`
otherwise); an untyped property whose first value's first element lacks
`'type'` raises `KeyError`; the in-place `'type'` assignment is modelled by
appending the updated copy.
-/
def flattenSchemaItems (fields : List (String × JVal)) (parentKey : List String)
    (sep : String) (level maxLevel : Nat) : Except PyErr (List (String × JVal)) :=
  match fields with
  | [] => pure []
  | (k0, v) :: rest => do
    let k := safeColumnName k0
    let newKey := flattenKey k parentKey sep
    let headItems ←
      match v with
      | .obj vf =>
        match pyGet vf "type" with
        | some vtype => do
          let hasObj ← pyInStr "object" vtype
          if hrec : hasObj ∧ (pyGet vf "properties").isSome ∧ level < maxLevel then
            flattenSchemaE v (parentKey ++ [k]) sep (level + 1) maxLevel
          else pure [(newKey, v)]
        | none =>
          match pyValues vf with
          | [] => pure []
          | v0 :: _ => do
            let first ← pyIndex0 v0
            match first with
            | .obj ff =>
              match pyGet ff "type" with
              | none => throw .keyError
              | some t =>
                if t = .s "string" then
                  pure [(newKey, .obj (pySet ff "type" (.arr [.s "null", .s "string"])))]
                else if t = .s "array" then
                  pure [(newKey, .obj (pySet ff "type" (.arr [.s "null", .s "array"])))]
                else if t = .s "object" then
                  pure [(newKey, .obj (pySet ff "type" (.arr [.s "null", .s "object"])))]
                else pure []
            | _ => throw .typeError
      | _ => throw .typeError
    let restItems ← flattenSchemaItems rest parentKey sep level maxLevel
    pure (headItems ++ restItems)
termination_by (maxLevel - level, sizeOf fields, 0)
decreasing_by
first
| (apply Prod.Lex.right; apply Prod.Lex.left; simp; omega)
| (apply Prod.Lex.left; have h2 := hrec.2.2; omega)

end

/-! ### `Except` inversion helpers -/

theorem exceptBind_eq_ok {α β : Type} {x : Except PyErr α} {f : α → Except PyErr β} {b : β}
    (h : x >>= f = .ok b) : ∃ a, x = .ok a ∧ f a = .ok b := by
  cases x with
  | error e => exact absurd h (by simp [Bind.bind, Except.bind])
  | ok a =>
    refine ⟨a, rfl, ?_⟩
    simpa [Bind.bind, Except.bind] using h

theorem exceptPure_eq_ok {α : Type} {a b : α}
    (h : (pure a : Except PyErr α) = .ok b) : a = b := by
  simpa [pure, Except.pure] using h

theorem exceptThrow_ne_ok {α : Type} {e : PyErr} {b : α}
    (h : (throw e : Except PyErr α) = .ok b) : False := by
  simp [throw, throwThe, MonadExceptOf.throw] at h

/-! ### Dictionary and sortedness lemmas -/

theorem pySet_eq_append_of_not_mem (l : List (String × α)) (k : String) (v : α)
    (h : k ∉ pyKeys l) : pySet l k v = l ++ [(k, v)] := by
  induction l with
  | nil => simp [pySet]
  | cons hd tl ih =>
    obtain ⟨k0, v0⟩ := hd
    have hne : k0 ≠ k := fun he => h (by simp [he])
    have htl : k ∉ pyKeys tl := fun hm => h (by simp [hm])
    simp [pySet, hne, ih htl]

theorem mem_pyKeys_pySet (l : List (String × α)) (k0 k : String) (v : α) :
    k ∈ pyKeys (pySet l k0 v) ↔ k ∈ pyKeys l ∨ k = k0 := by
  by_cases hm : k0 ∈ pyKeys l
  · rw [pyKeys_pySet_of_mem _ _ _ hm]
    constructor
    · exact Or.inl
    · rintro (h | h)
      · exact h
      · rwa [h]
  · rw [pyKeys_pySet_of_not_mem _ _ _ hm]
    simp

theorem pyDict_foldl_eq (l : List (String × α)) :
    ∀ acc, (pyKeys (acc ++ l)).Nodup →
      l.foldl (fun acc kv => pySet acc kv.1 kv.2) acc = acc ++ l := by
  induction l with
  | nil => intro acc _; simp
  | cons hd tl ih =>
    intro acc h
    obtain ⟨k, v⟩ := hd
    have hkeys : pyKeys (acc ++ (k, v) :: tl) = pyKeys acc ++ k :: pyKeys tl := by simp
    rw [hkeys] at h
    have hk : k ∉ pyKeys acc := by
      intro hmem
      have hdisj := (List.nodup_append.mp h).2.2
      exact hdisj hmem (by simp)
    rw [List.foldl_cons, pySet_eq_append_of_not_mem _ _ _ hk]
    have hrec := ih (acc ++ [(k, v)]) (by simpa using h)
    simpa using hrec

theorem pyDict_eq_self_of_nodup (l : List (String × α)) (h : (pyKeys l).Nodup) :
    pyDict l = l := by
  have := pyDict_foldl_eq l [] (by simpa using h)
  simpa [pyDict] using this

theorem pyKeys_foldl_pySet_nodup (l : List (String × α)) :
    ∀ acc, (pyKeys acc).Nodup →
      (pyKeys (l.foldl (fun acc kv => pySet acc kv.1 kv.2) acc)).Nodup := by
  induction l with
  | nil => intro acc h; simpa
  | cons hd tl ih =>
    intro acc h
    obtain ⟨k, v⟩ := hd
    rw [List.foldl_cons]
    apply ih
    by_cases hk : k ∈ pyKeys acc
    · rwa [pyKeys_pySet_of_mem _ _ _ hk]
    · rw [pyKeys_pySet_of_not_mem _ _ _ hk]
      rw [List.nodup_append]
      refine ⟨h, by simp, ?_⟩
      intro a ha hb
      rw [List.mem_singleton.mp hb] at ha
      exact hk ha

theorem pyKeys_pyDict_nodup (l : List (String × α)) : (pyKeys (pyDict l)).Nodup :=
  pyKeys_foldl_pySet_nodup l [] (by simp)

theorem mem_pyKeys_foldl_pySet (l : List (String × α)) :
    ∀ acc k, k ∈ pyKeys (l.foldl (fun acc kv => pySet acc kv.1 kv.2) acc) ↔
      k ∈ pyKeys acc ∨ k ∈ pyKeys l := by
  induction l with
  | nil => intro acc k; simp
  | cons hd tl ih =>
    intro acc k
    obtain ⟨k0, v⟩ := hd
    rw [List.foldl_cons, ih, mem_pyKeys_pySet]
    simp
    tauto

theorem mem_pyKeys_pyDict (l : List (String × α)) (k : String) :
    k ∈ pyKeys (pyDict l) ↔ k ∈ pyKeys l := by
  have := mem_pyKeys_foldl_pySet l [] k
  simpa [pyDict] using this

theorem nodup_keys_of_sorted_noAdjacentDup (l : List (String × JVal))
    (hp : List.Pairwise (fun a b => a.1 ≤ b.1) l)
    (hadj : firstAdjacentDupKey l = none) : (pyKeys l).Nodup := by
  induction l with
  | nil => simp
  | cons hd tl ih =>
    obtain ⟨k1, v1⟩ := hd
    cases tl with
    | nil => simp [pyKeys]
    | cons hd2 tl2 =>
      obtain ⟨k2, v2⟩ := hd2
      by_cases h12 : k1 = k2
      · simp [firstAdjacentDupKey, h12] at hadj
      · rw [firstAdjacentDupKey, if_neg h12] at hadj
        have hp2 := List.pairwise_cons.mp hp
        have ihn := ih hp2.2 hadj
        rw [pyKeys_cons, List.nodup_cons]
        refine ⟨?_, ihn⟩
        intro hmem
        rcases List.mem_cons.mp (by simpa using hmem) with he | he
        · exact h12 he
        · obtain ⟨b, hb, hbk⟩ := List.mem_map.mp he
          have hk1k2 : k1 ≤ k2 := hp2.1 (k2, v2) (by simp)
          have hp3 := List.pairwise_cons.mp hp2.2
          have hk2b : k2 ≤ b.1 := hp3.1 b hb
          rw [hbk] at hk2b
          exact h12 (le_antisymm hk1k2 hk2b)

/-- The items list sorted as in `flatten_schema` is pairwise key-ordered. -/
theorem sorted_flattenSchemaSort (items : List (String × JVal)) :
    List.Pairwise (fun a b : String × JVal => a.1 ≤ b.1)
      (items.mergeSort schemaItemLe) := by
  have h := @List.sorted_mergeSort _ schemaItemLe
    (fun a b c hab hbc => by
      simp only [schemaItemLe, decide_eq_true_eq] at hab hbc ⊢
      exact le_trans hab hbc)
    (fun a b => by
      simp only [schemaItemLe, Bool.or_eq_true, decide_eq_true_eq]
      exact le_total a.1 b.1)
    items
  exact h.imp (fun hab => by simpa [schemaItemLe] using hab)

/-- Unfolding of `flattenSchemaE` on a schema document with a mapping-valued
`properties` key. -/
theorem flattenSchemaE_obj_props (fields pf : List (String × JVal))
    (parentKey : List String) (sep : String) (level maxLevel : Nat)
    (hpp : pyGet fields "properties" = some (.obj pf)) :
    flattenSchemaE (.obj fields) parentKey sep level maxLevel =
      flattenSchemaItems pf parentKey sep level maxLevel >>= fun items =>
        match firstAdjacentDupKey (items.mergeSort schemaItemLe) with
        | some k => throw (.duplicateColumn k)
        | none => pure (pyDict (items.mergeSort schemaItemLe)) := by
  rw [flattenSchemaE, hpp]

/--
**C6.**  Schema flattening fails with a hard error (raised as Python
`ValueError('Duplicate column name produced in schema: ...')`, the error the
specification calls `SchemaConflictError`) whenever two distinct source
property paths flatten to the same final column name — i.e. whenever the
`items` list accumulated over the `properties` entries carries a duplicate
final name; consequently, on every schema on which flattening succeeds the
produced column names are pairwise distinct.
-/
theorem c6_flatten_schema_duplicate_detection (d : JVal) (parentKey : List String)
    (sep : String) (level maxLevel : Nat) :
    (∀ l, flattenSchemaE d parentKey sep level maxLevel = .ok l → (pyKeys l).Nodup) ∧
    (∀ fields pf items, d = .obj fields →
      pyGet fields "properties" = some (.obj pf) →
      flattenSchemaItems pf parentKey sep level maxLevel = .ok items →
      ¬ (pyKeys items).Nodup →
      ∃ dup, flattenSchemaE d parentKey sep level maxLevel = .error (.duplicateColumn dup)) := by
  constructor
  · intro l hok
    cases d with
    | obj fields =>
      rw [flattenSchemaE] at hok
      cases hpp : pyGet fields "properties" with
      | none =>
        rw [hpp] at hok
        rw [← exceptPure_eq_ok hok]
        simp
      | some props =>
        rw [hpp] at hok
        cases props with
        | obj pf =>
          obtain ⟨items, hItems, hcont⟩ := exceptBind_eq_ok hok
          simp only [] at hcont
          cases hadj : firstAdjacentDupKey (items.mergeSort schemaItemLe) with
          | some k =>
            rw [hadj] at hcont
            exact (exceptThrow_ne_ok hcont).elim
          | none =>
            rw [hadj] at hcont
            rw [← exceptPure_eq_ok hcont]
            exact pyKeys_pyDict_nodup _
        | null => exact (exceptThrow_ne_ok hok).elim
        | b x => exact (exceptThrow_ne_ok hok).elim
        | i n => exact (exceptThrow_ne_ok hok).elim
        | s str => exact (exceptThrow_ne_ok hok).elim
        | arr xs => exact (exceptThrow_ne_ok hok).elim
    | arr xs =>
      rw [flattenSchemaE] at hok
      split at hok
      · exact (exceptThrow_ne_ok hok).elim
      · rw [← exceptPure_eq_ok hok]
        simp
    | s str =>
      rw [flattenSchemaE] at hok
      split at hok
      · exact (exceptThrow_ne_ok hok).elim
      · rw [← exceptPure_eq_ok hok]
        simp
    | null =>
      rw [flattenSchemaE] at hok <;> try (intro _ h; cases h)
      exact (exceptThrow_ne_ok hok).elim
    | b x =>
      rw [flattenSchemaE] at hok <;> try (intro _ h; cases h)
      exact (exceptThrow_ne_ok hok).elim
    | i n =>
      rw [flattenSchemaE] at hok <;> try (intro _ h; cases h)
      exact (exceptThrow_ne_ok hok).elim
  · intro fields pf items hd hpp hItems hdup
    subst hd
    have hsorted := sorted_flattenSchemaSort items
    have hperm : ((items.mergeSort schemaItemLe).map (·.1)).Perm (items.map (·.1)) :=
      (List.mergeSort_perm items _).map _
    obtain ⟨dup, hadj⟩ : ∃ dup,
        firstAdjacentDupKey (items.mergeSort schemaItemLe) = some dup := by
      cases hadj : firstAdjacentDupKey (items.mergeSort schemaItemLe) with
      | none =>
        exfalso
        have hnodup := nodup_keys_of_sorted_noAdjacentDup _ hsorted hadj
        exact hdup (hperm.nodup_iff.mp hnodup)
      | some k => exact ⟨k, rfl⟩
    refine ⟨dup, ?_⟩
    rw [flattenSchemaE_obj_props fields pf parentKey sep level maxLevel hpp, hItems]
    rw [show ∀ (f : List (String × JVal) → Except PyErr (List (String × JVal))),
      Except.ok items >>= f = f items from fun f => rfl]
    rw [hadj]
    rfl

/-! ### Flattening idempotence (C7) and primary-key derivation (C10) -/

/-- A name already below the length bound is never abbreviated. -/
theorem flattenKey_of_short (k : String) (parent : List String) (sep : String)
    (h : (sep.intercalate (parent ++ [k])).length < 255) :
    flattenKey k parent sep = sep.intercalate (parent ++ [k]) := by
  unfold flattenKey
  rw [flattenKeyLoop, if_neg]
  intro hc
  omega

theorem stringIntercalate_singleton (sep x : String) : sep.intercalate [x] = x := by
  simp [String.intercalate]
  rfl

/-- At or beyond the maximum flattening level, each record entry becomes one
item keyed by its flattened name. -/
theorem flattenRecordItems_of_level_ge (l : List (String × JVal))
    (parent : List String) (sep : String) (level maxLevel : Nat)
    (h : maxLevel ≤ level) :
    flattenRecordItems l parent sep level maxLevel =
      l.map (fun p => (flattenKey (safeColumnName p.1) parent sep, p.2)) := by
  induction l with
  | nil =>
    rw [flattenRecordItems]
    simp
  | cons hd tl ih =>
    obtain ⟨k0, v⟩ := hd
    have hnot : ¬ level < maxLevel := by omega
    cases v <;>
      (rw [flattenRecordItems] <;> first
        | (intro _ hcc; cases hcc)
        | simp [hnot, ih])

/-- The record used in the C7 counterexample: `{"a": {"b": {"c": 1}}}`. -/
def nestedRecordC7 : List (String × JVal) := [("a", .obj [("b", .obj [("c", .i 1)])])]

theorem flattenRecord_nestedRecordC7 :
    flattenRecord nestedRecordC7 [] "__" 0 1 = [("a__b", .obj [("c", .i 1)])] := by
  have hk : flattenKey "b" ["a"] "__" = "a__b" := by
    rw [flattenKey_of_short _ _ _ (by decide)]
    decide
  have hinner : flattenRecordItems [("b", .obj [("c", .i 1)])] ["a"] "__" 1 1 =
      [("a__b", .obj [("c", .i 1)])] := by
    rw [flattenRecordItems_of_level_ge _ _ _ _ _ (le_refl 1)]
    simp only [List.map_cons, List.map_nil]
    rw [show safeColumnName "b" = "b" from by decide, hk]
  rw [flattenRecord, nestedRecordC7, flattenRecordItems]
  try simp only []
  rw [dif_pos (by decide : (0:Nat) < 1)]
  rw [show ([] : List String) ++ [safeColumnName "a"] = ["a"] from by decide]
  rw [hinner, flattenRecordItems]
  decide

theorem flattenRecord_nestedRecordC7_again :
    flattenRecord [("a__b", .obj [("c", .i 1)])] [] "__" 0 1 = [("a__b__c", .i 1)] := by
  have hk : flattenKey "c" ["a__b"] "__" = "a__b__c" := by
    rw [flattenKey_of_short _ _ _ (by decide)]
    decide
  have hinner : flattenRecordItems [("c", .i 1)] ["a__b"] "__" 1 1 =
      [("a__b__c", .i 1)] := by
    rw [flattenRecordItems_of_level_ge _ _ _ _ _ (le_refl 1)]
    simp only [List.map_cons, List.map_nil]
    rw [show safeColumnName "c" = "c" from by decide, hk]
  rw [flattenRecord, flattenRecordItems]
  try simp only []
  rw [dif_pos (by decide : (0:Nat) < 1)]
  rw [show ([] : List String) ++ [safeColumnName "a__b"] = ["a__b"] from by decide]
  rw [hinner, flattenRecordItems]
  decide

/--
**C7, counterexample.**  The claim states that for every record and depth
limit `L`, re-flattening the output of `flatten_record` at the same `L`
yields the same result.  At `L = 1` the record `{"a": {"b": {"c": 1}}}`
flattens to `{"a__b": {"c": 1}}` — the depth limit stops the recursion, so
the output still contains a mapping value — and re-flattening that output at
the same `L = 1` descends into the remaining mapping and produces
`{"a__b__c": 1}`, a different result.
-/
theorem c7_flattening_idempotence_counterexample :
    flattenRecord (flattenRecord nestedRecordC7 [] "__" 0 1) [] "__" 0 1 ≠
      flattenRecord nestedRecordC7 [] "__" 0 1 := by
  rw [flattenRecord_nestedRecordC7, flattenRecord_nestedRecordC7_again]
  decide

/--
**C7, amended.**  Flattening a record is idempotent at depth limit 0
(where no recursion into nested mappings happens), provided every sanitized
top-level key is shorter than 255 characters so that no name abbreviation
applies: re-flattening the flat output yields it unchanged.  At depth limits
`L > 0` the output may retain mapping values (when nesting exceeds `L`)
which a second flattening pass expands further.  Re-flattening the *output*
of `flatten_schema` yields the empty mapping whenever no produced column is
itself named `properties`, because the output is a bare column map without a
top-level `properties` key — so `flatten_schema` applied twice is the
constant empty map, not the identity.
-/
theorem c7_flattening_idempotence_amended :
    (∀ (r : List (String × JVal)), (∀ p ∈ r, (safeColumnName p.1).length < 255) →
      flattenRecord (flattenRecord r [] "__" 0 0) [] "__" 0 0 =
        flattenRecord r [] "__" 0 0) ∧
    (∀ (d : JVal) (parent : List String) (sep : String) (level maxLevel : Nat)
      (l : List (String × JVal)),
      flattenSchemaE d parent sep level maxLevel = .ok l →
      "properties" ∉ pyKeys l →
      ∀ (parent2 : List String) (sep2 : String) (level2 maxLevel2 : Nat),
        flattenSchemaE (.obj l) parent2 sep2 level2 maxLevel2 = .ok []) := by
  constructor
  · intro r h
    have hshort : ∀ p ∈ r, flattenKey (safeColumnName p.1) [] "__" = safeColumnName p.1 := by
      intro p hp
      rw [flattenKey_of_short _ _ _ (by
        rw [List.nil_append, stringIntercalate_singleton]
        exact h p hp)]
      rw [List.nil_append, stringIntercalate_singleton]
    have hfirst : flattenRecord r [] "__" 0 0 =
        pyDict (r.map (fun p => (safeColumnName p.1, p.2))) := by
      rw [flattenRecord, flattenRecordItems_of_level_ge _ _ _ _ _ (le_refl 0)]
      congr 1
      exact List.map_congr_left (fun p hp => by rw [hshort p hp])
    set f1 := flattenRecord r [] "__" 0 0 with hf1
    have hkeys : ∀ k ∈ pyKeys f1, ∃ p ∈ r, k = safeColumnName p.1 := by
      intro k hk
      rw [hfirst] at hk
      rw [mem_pyKeys_pyDict] at hk
      simp only [pyKeys, List.map_map, List.mem_map] at hk
      obtain ⟨p, hp, hpk⟩ := hk
      exact ⟨p, hp, hpk.symm⟩
    have hsecond : flattenRecord f1 [] "__" 0 0 = pyDict f1 := by
      rw [flattenRecord, flattenRecordItems_of_level_ge _ _ _ _ _ (le_refl 0)]
      congr 1
      have hmapeq : f1.map (fun p => (flattenKey (safeColumnName p.1) [] "__", p.2)) =
          f1.map id := by
        apply List.map_congr_left
        intro q hq
        have hqk : q.1 ∈ pyKeys f1 := by
          simp only [pyKeys, List.mem_map]
          exact ⟨q, hq, rfl⟩
        obtain ⟨p, hp, hpq⟩ := hkeys q.1 hqk
        have hsafe : safeColumnName q.1 = q.1 := by
          rw [hpq, safeColumnName_idem]
        have hlen : (safeColumnName q.1).length < 255 := by
          rw [hsafe, hpq]
          exact h p hp
        have hks := flattenKey_of_short (safeColumnName q.1) [] "__" (by
          rw [List.nil_append, stringIntercalate_singleton]
          exact hlen)
        rw [hks, List.nil_append, stringIntercalate_singleton, hsafe, id_eq]
      rw [hmapeq, List.map_id]
    rw [hsecond]
    apply pyDict_eq_self_of_nodup
    show (pyKeys f1).Nodup
    rw [hfirst]
    exact pyKeys_pyDict_nodup _
  · intro d parent sep level maxLevel l hok hnp parent2 sep2 level2 maxLevel2
    have hnone : pyGet l "properties" = none :=
      (pyGet_eq_none_iff_not_mem_keys l "properties").mpr hnp
    rw [flattenSchemaE, hnone]
    rfl

/--
**C10.**  Deriving the primary-key string of a record returns `None` exactly
when the configured `key_properties` list is empty; when it is non-empty and
the flattened record lacks one of the configured primary-key columns, the
`KeyError` is re-raised — the record is never given a null or partial key.
-/
theorem c10_primary_key_string (keyProperties : List String) (maxLevel : Nat)
    (record : List (String × JVal)) :
    (recordPrimaryKeyString keyProperties maxLevel record = .ok none ↔
      keyProperties = []) ∧
    ((∃ p ∈ keyProperties,
        pyGet (flattenRecord record [] "__" 0 maxLevel) (asciiLowerStr p) = none) →
      recordPrimaryKeyString keyProperties maxLevel record =
        .error .missingPrimaryKey) := by
  set flat := flattenRecord record [] "__" 0 maxLevel with hflatDef
  have hmapM : ∀ (kp : List String), (∃ p ∈ kp, pyGet flat (asciiLowerStr p) = none) →
      kp.mapM (fun p =>
        match pyGet flat (asciiLowerStr p) with
        | some v => pure (pyStr v)
        | none => throw PyErr.missingPrimaryKey) =
        (.error .missingPrimaryKey : Except PyErr (List String)) := by
    intro kp
    induction kp with
    | nil =>
      rintro ⟨p, hp, _⟩
      cases hp
    | cons p0 rest ih =>
      rintro ⟨p, hp, hnone⟩
      simp only [List.mapM_cons]
      cases hget : pyGet flat (asciiLowerStr p0) with
      | none => rfl
      | some v =>
        rcases List.mem_cons.mp hp with he | he
        · rw [he] at hnone
          rw [hnone] at hget
          cases hget
        · have hrest := ih ⟨p, he, hnone⟩
          rw [show ∀ (g : String → Except PyErr (List String)),
            (pure (pyStr v) : Except PyErr String) >>= g = g (pyStr v) from fun g => rfl]
          rw [hrest]
          rfl
  constructor
  · constructor
    · intro hok
      by_contra hne
      have hlen : ¬ keyProperties.length = 0 := fun hz => hne (List.length_eq_zero.mp hz)
      rw [recordPrimaryKeyString, if_neg hlen] at hok
      obtain ⟨ks, _, hcont⟩ := exceptBind_eq_ok hok
      have := exceptPure_eq_ok hcont
      cases this
    · intro he
      subst he
      rw [recordPrimaryKeyString]
      rfl
  · intro hex
    have hlen : ¬ keyProperties.length = 0 := by
      obtain ⟨p, hp, _⟩ := hex
      intro hz
      rw [List.length_eq_zero.mp hz] at hp
      cases hp
    rw [recordPrimaryKeyString, if_neg hlen]
    show (keyProperties.mapM _) >>= _ = _
    rw [hmapM keyProperties hex]
    rfl

/-- Witness for `c10_primary_key_string` at concrete inputs: a one-column
primary key missing from the empty record raises, and an empty
`key_properties` list yields `None`. -/
theorem c10_primary_key_string_witness :
    recordPrimaryKeyString ["id"] 0 [] = .error .missingPrimaryKey ∧
      recordPrimaryKeyString [] 0 [] = .ok none := by
  constructor
  · apply (c10_primary_key_string ["id"] 0 []).2
    refine ⟨"id", by simp, ?_⟩
    rw [flattenRecord, flattenRecordItems]
    rfl
  · exact (c10_primary_key_string [] 0 []).1.mpr rfl

/-! ### Numeric clamping (`records_to_avro`, C4)

Python `Decimal` values are pairs `coefficient * 10 ^ exponent`.  The module
constants of `db_sync.py`:
```python
PRECISION = 38
SCALE = 9
getcontext().prec = PRECISION
ALLOWED_DECIMALS = Decimal(10) ** Decimal(-SCALE)
MAX_NUM = (Decimal(10) ** Decimal(PRECISION-SCALE)) - ALLOWED_DECIMALS
```
so `ALLOWED_DECIMALS = 10 ^ (-9)` and `MAX_NUM = 10 ^ 29 - 10 ^ (-9)`, the
decimal with coefficient `10 ^ 38 - 1` at exponent `-9`. -/

structure PyDecimal where
  coeff : Int
  exp : Int
  deriving DecidableEq, Repr

/-- The rational value of a decimal. -/
def PyDecimal.toRat (d : PyDecimal) : ℚ := (d.coeff : ℚ) * (10 : ℚ) ^ d.exp

/-- Python unary minus on a decimal. -/
def PyDecimal.neg (d : PyDecimal) : PyDecimal := ⟨-d.coeff, d.exp⟩

/-- `ALLOWED_DECIMALS`. -/
def ALLOWED_DECIMALS : PyDecimal := ⟨1, -9⟩

/-- `MAX_NUM`. -/
def MAX_NUM : PyDecimal := ⟨10 ^ 38 - 1, -9⟩

/-- `MAX_NUM` is `10^29 - 10^(-9)`, the value whose decimal form is
`99999999999999999999999999999.999999999` (29 nines, point, 9 nines). -/
theorem MAX_NUM_toRat : MAX_NUM.toRat = (10 : ℚ) ^ (29 : ℕ) - ((10 : ℚ) ^ (9 : ℕ))⁻¹ := by
  rw [PyDecimal.toRat, MAX_NUM]
  rw [show ((-9 : ℤ)) = -(9 : ℕ) from rfl, zpow_neg, zpow_natCast]
  push_cast
  field_simp
  ring

/-- Round half to even: the default rounding of Python's decimal context. -/
def roundHalfEven (q : ℚ) : Int :=
  if q - ⌊q⌋ < 1 / 2 then ⌊q⌋
  else if 1 / 2 < q - ⌊q⌋ then ⌊q⌋ + 1
  else if Even ⌊q⌋ then ⌊q⌋ else ⌊q⌋ + 1

/-- `n.quantize(ALLOWED_DECIMALS)` under the module context
(`prec = 38`, `ROUND_HALF_EVEN`): round to exponent `-9`; raises
`InvalidOperation` (modelled as `none`) when the resulting coefficient needs
more than 38 digits. -/
def quantizeTo9 (d : PyDecimal) : Option PyDecimal :=
  let c := roundHalfEven (d.toRat * 10 ^ 9)
  if c.natAbs < 10 ^ 38 then some ⟨c, -9⟩ else none

/--
The `'number' in props['type']` branch of `DbSync.records_to_avro`:
```python
if flatten[name] is None:
    result[name] = None
else:
    n = Decimal(flatten[name])
    # limit n to the range -MAX_NUM to MAX_NUM
    result[name] = MAX_NUM if n > MAX_NUM else -MAX_NUM if n < -MAX_NUM else n.quantize(ALLOWED_DECIMALS)
```
The outer `Option` is the absence of an `InvalidOperation` error, the inner
`Option` is the null value.
-/
def numericClamp (n : Option PyDecimal) : Option (Option PyDecimal) :=
  match n with
  | none => some none
  | some d =>
    if MAX_NUM.toRat < d.toRat then some (some MAX_NUM)
    else if d.toRat < -MAX_NUM.toRat then some (some MAX_NUM.neg)
    else (quantizeTo9 d).map some

theorem roundHalfEven_le (q : ℚ) (B : ℤ) (h : q ≤ (B : ℚ)) : roundHalfEven q ≤ B := by
  have hf : ⌊q⌋ ≤ B := by
    rw [Int.floor_le_iff]
    calc q ≤ (B : ℚ) := h
    _ < B + 1 := by linarith
  rw [roundHalfEven]
  by_cases h1 : q - ⌊q⌋ < 1 / 2
  · rw [if_pos h1]
    exact hf
  · rw [if_neg h1]
    have hq2 : (⌊q⌋ : ℚ) + 1 / 2 ≤ q := by
      push_neg at h1
      linarith
    have hlt : ⌊q⌋ < B := by
      by_contra hc
      push_neg at hc
      have : (B : ℚ) ≤ (⌊q⌋ : ℚ) := by exact_mod_cast hc
      linarith
    by_cases h2 : 1 / 2 < q - ⌊q⌋
    · rw [if_pos h2]
      omega
    · rw [if_neg h2]
      by_cases h3 : Even ⌊q⌋
      · rw [if_pos h3]
        omega
      · rw [if_neg h3]
        omega

theorem le_roundHalfEven (q : ℚ) (B : ℤ) (h : (B : ℚ) ≤ q) : B ≤ roundHalfEven q := by
  have hf : B ≤ ⌊q⌋ := Int.le_floor.mpr h
  rw [roundHalfEven]
  by_cases h1 : q - ⌊q⌋ < 1 / 2
  · rw [if_pos h1]
    exact hf
  · rw [if_neg h1]
    by_cases h2 : 1 / 2 < q - ⌊q⌋
    · rw [if_pos h2]
      omega
    · rw [if_neg h2]
      by_cases h3 : Even ⌊q⌋
      · rw [if_pos h3]
        omega
      · rw [if_neg h3]
        omega

theorem MAX_NUM_toRat_mul : MAX_NUM.toRat * 10 ^ 9 = ((10 : ℚ) ^ (38 : ℕ) - 1) := by
  rw [PyDecimal.toRat, MAX_NUM]
  rw [show ((-9 : ℤ)) = -(9 : ℕ) from rfl, zpow_neg, zpow_natCast]
  push_cast
  field_simp
  ring

/--
**C4.**  During record normalization, every value typed `numeric` is clamped
to the warehouse bound of 38 total digits with 9 fractional digits: a value
greater than `MAX_NUM = 10^29 - 10^(-9)` saturates to exactly `MAX_NUM`
(the spec's `99999999999999999999999999999.999999999`), a value below the
negative bound saturates symmetrically to `-MAX_NUM`, an in-range value is
quantized (round half to even) to exactly 9 fractional digits, and no input
raises the decimal overflow (`InvalidOperation`) error.
-/
theorem c4_numeric_clamping (d : PyDecimal) :
    (∃ r, numericClamp (some d) = some (some r)) ∧
    (MAX_NUM.toRat < d.toRat → numericClamp (some d) = some (some MAX_NUM)) ∧
    (d.toRat < -MAX_NUM.toRat → numericClamp (some d) = some (some MAX_NUM.neg)) ∧
    (-MAX_NUM.toRat ≤ d.toRat → d.toRat ≤ MAX_NUM.toRat →
      numericClamp (some d) =
        some (some ⟨roundHalfEven (d.toRat * 10 ^ 9), -9⟩)) := by
  have hquant : -MAX_NUM.toRat ≤ d.toRat → d.toRat ≤ MAX_NUM.toRat →
      quantizeTo9 d = some ⟨roundHalfEven (d.toRat * 10 ^ 9), -9⟩ := by
    intro hlo hhi
    have hhi9 : d.toRat * 10 ^ 9 ≤ ((10 ^ 38 - 1 : ℤ) : ℚ) := by
      have := mul_le_mul_of_nonneg_right hhi (by positivity : (0:ℚ) ≤ 10 ^ 9)
      rw [MAX_NUM_toRat_mul] at this
      push_cast
      linarith
    have hlo9 : ((-(10 ^ 38 - 1) : ℤ) : ℚ) ≤ d.toRat * 10 ^ 9 := by
      have := mul_le_mul_of_nonneg_right hlo (by positivity : (0:ℚ) ≤ 10 ^ 9)
      rw [neg_mul, MAX_NUM_toRat_mul] at this
      push_cast
      linarith
    have h1 := roundHalfEven_le (d.toRat * 10 ^ 9) (10 ^ 38 - 1) hhi9
    have h2 := le_roundHalfEven (d.toRat * 10 ^ 9) (-(10 ^ 38 - 1)) hlo9
    rw [quantizeTo9]
    rw [if_pos (by omega)]
  refine ⟨?_, ?_, ?_, ?_⟩
  · by_cases hgt : MAX_NUM.toRat < d.toRat
    · exact ⟨MAX_NUM, by rw [numericClamp, if_pos hgt]⟩
    · by_cases hlt : d.toRat < -MAX_NUM.toRat
      · exact ⟨MAX_NUM.neg, by rw [numericClamp, if_neg hgt, if_pos hlt]⟩
      · refine ⟨⟨roundHalfEven (d.toRat * 10 ^ 9), -9⟩, ?_⟩
        rw [numericClamp, if_neg hgt, if_neg hlt,
          hquant (le_of_not_lt hlt) (le_of_not_lt hgt)]
        rfl
  · intro hgt
    rw [numericClamp, if_pos hgt]
  · intro hlt
    have hgt : ¬ MAX_NUM.toRat < d.toRat := by
      intro hc
      have hpos : (0:ℚ) < MAX_NUM.toRat := by
        rw [MAX_NUM_toRat]
        norm_num
      linarith
    rw [numericClamp, if_neg hgt, if_pos hlt]
  · intro hlo hhi
    rw [numericClamp, if_neg (not_lt.mpr hhi), if_neg (not_lt.mpr hlo), hquant hlo hhi]
    rfl

/-- Witness for `c4_numeric_clamping` at the spec's example: the decimal
`99999999999999999999999999999.9999999999` (coefficient `10^39 - 1` at
exponent `-10`, which exceeds scale 9) is stored as exactly `MAX_NUM`, and
its negation as exactly `-MAX_NUM`. -/
theorem c4_numeric_clamping_witness :
    numericClamp (some ⟨10 ^ 39 - 1, -10⟩) = some (some MAX_NUM) ∧
      numericClamp (some ⟨-(10 ^ 39 - 1), -10⟩) = some (some MAX_NUM.neg) := by
  have hval : (⟨10 ^ 39 - 1, -10⟩ : PyDecimal).toRat =
      ((10 ^ 39 - 1 : ℚ)) / 10 ^ (10 : ℕ) := by
    rw [PyDecimal.toRat]
    rw [show ((-10 : ℤ)) = -(10 : ℕ) from rfl, zpow_neg, zpow_natCast]
    push_cast
    ring
  have hvalneg : (⟨-(10 ^ 39 - 1), -10⟩ : PyDecimal).toRat =
      -((10 ^ 39 - 1 : ℚ)) / 10 ^ (10 : ℕ) := by
    rw [PyDecimal.toRat]
    rw [show ((-10 : ℤ)) = -(10 : ℕ) from rfl, zpow_neg, zpow_natCast]
    push_cast
    ring
  have hgt : MAX_NUM.toRat < (⟨10 ^ 39 - 1, -10⟩ : PyDecimal).toRat := by
    rw [hval, MAX_NUM_toRat]
    rw [div_eq_mul_inv, sub_mul]
    rw [show ((10:ℚ) ^ (39:ℕ)) * ((10:ℚ) ^ (10:ℕ))⁻¹ = (10:ℚ) ^ (29:ℕ) by
      field_simp
      ring]
    have : ((10:ℚ) ^ (9:ℕ))⁻¹ > ((10:ℚ) ^ (10:ℕ))⁻¹ := by
      apply inv_lt_inv_of_lt
      · positivity
      · norm_num
    linarith
  have hlt : (⟨-(10 ^ 39 - 1), -10⟩ : PyDecimal).toRat < -MAX_NUM.toRat := by
    rw [hvalneg]
    rw [show -((10 ^ 39 - 1 : ℚ)) / 10 ^ (10:ℕ) = -(((10 ^ 39 - 1 : ℚ)) / 10 ^ (10:ℕ)) by ring]
    rw [neg_lt_neg_iff]
    rw [show ((10 ^ 39 - 1 : ℚ)) / 10 ^ (10:ℕ) = (⟨10 ^ 39 - 1, -10⟩ : PyDecimal).toRat from hval.symm]
    exact hgt
  exact ⟨(c4_numeric_clamping ⟨10 ^ 39 - 1, -10⟩).2.1 hgt,
    (c4_numeric_clamping ⟨-(10 ^ 39 - 1), -10⟩).2.2.1 hlt⟩

/-! ### `SchemaField`, `bigquery_type`, `column_type` -/

/-- `google.cloud.bigquery.SchemaField(name, field_type, mode, fields=())`,
restricted to the attributes the program uses. -/
structure SchemaField where
  name : String
  field_type : String
  mode : String
  fields : List SchemaField
  deriving Repr

mutual

def SchemaField.decEq : (a b : SchemaField) → Decidable (a = b)
  | ⟨n1, t1, m1, f1⟩, ⟨n2, t2, m2, f2⟩ =>
    match String.decEq n1 n2, String.decEq t1 t2, String.decEq m1 m2,
        SchemaField.decEqList f1 f2 with
    | .isTrue h1, .isTrue h2, .isTrue h3, .isTrue h4 =>
      .isTrue (by rw [h1, h2, h3, h4])
    | .isFalse h, _, _, _ => .isFalse (by simp [h])
    | _, .isFalse h, _, _ => .isFalse (by simp [h])
    | _, _, .isFalse h, _ => .isFalse (by simp [h])
    | _, _, _, .isFalse h => .isFalse (by simp [h])

def SchemaField.decEqList : (xs ys : List SchemaField) → Decidable (xs = ys)
  | [], [] => .isTrue rfl
  | x :: xs, y :: ys =>
    match SchemaField.decEq x y, SchemaField.decEqList xs ys with
    | .isTrue h1, .isTrue h2 => .isTrue (by rw [h1, h2])
    | .isFalse h1, _ => .isFalse (by simp [h1])
    | _, .isFalse h2 => .isFalse (by simp [h2])
  | [], _ :: _ => .isFalse (fun h => nomatch h)
  | _ :: _, [] => .isFalse (fun h => nomatch h)

end

instance : DecidableEq SchemaField := SchemaField.decEq

/--
`bigquery_type(property_type, property_format)` from `db_sync.py`; the `in`
containment checks can raise `TypeError` on non-container type values, and
short-circuit evaluation of `and` is preserved.
-/
def bigqueryType (property_type : JVal) (property_format : Option JVal) :
    Except PyErr String :=
  if property_format = some (.s "date-time") then pure "timestamp"
  else if property_format = some (.s "time") then pure "time"
  else do
    let hasNum ← pyInStr "number" property_type
    if hasNum then pure "numeric"
    else do
      let hasInt ← pyInStr "integer" property_type
      let hasStr ← if hasInt then pyInStr "string" property_type else pure false
      if hasInt ∧ hasStr then pure "string"
      else if hasInt then pure "integer"
      else do
        let hasBool ← pyInStr "boolean" property_type
        if hasBool then pure "boolean"
        else do
          let hasObj ← pyInStr "object" property_type
          if hasObj then pure "record" else pure "string"

mutual

/--
`column_type(name, schema_property)`:
```python
safe_name = safe_column_name(name, quotes=False)
property_type = schema_property['type']
property_format = schema_property.get('format', None)
if 'array' in property_type:
    try:
        items_schema = schema_property['items']
        items_type = bigquery_type(items_schema['type'], items_schema.get('format', None))
    except KeyError:
        return SchemaField(safe_name, 'string', 'NULLABLE')
    else:
        if items_type == "record":
            return handle_record_type(safe_name, items_schema, "REPEATED")
        return SchemaField(safe_name, items_type, 'REPEATED')
elif 'object' in property_type:
    return handle_record_type(safe_name, schema_property)
else:
    result_type = bigquery_type(property_type, property_format)
    return SchemaField(safe_name, result_type, 'NULLABLE')
```
Only `KeyError` is caught in the array branch; `TypeError` propagates.
-/
def columnType (name : String) (sp : JVal) : Except PyErr SchemaField :=
  match sp with
  | .obj spf =>
    match pyGet spf "type" with
    | none => throw .keyError
    | some property_type => do
      let property_format := pyGet spf "format"
      let hasArr ← pyInStr "array" property_type
      if hasArr then
        match hi : pyGet spf "items" with
        | none => pure ⟨safeColumnName name, "string", "NULLABLE", []⟩
        | some (.obj itf) =>
          match pyGet itf "type" with
          | none => pure ⟨safeColumnName name, "string", "NULLABLE", []⟩
          | some it => do
            let items_type ← bigqueryType it (pyGet itf "format")
            if items_type = "record" then
              handleRecordType (safeColumnName name) (.obj itf) "REPEATED"
            else pure ⟨safeColumnName name, items_type, "REPEATED", []⟩
        | some _ => throw .typeError
      else do
        let hasObjT ← pyInStr "object" property_type
        if hasObjT then handleRecordType (safeColumnName name) (.obj spf) "NULLABLE"
        else do
          let result_type ← bigqueryType property_type property_format
          pure ⟨safeColumnName name, result_type, "NULLABLE", []⟩
  | _ => throw .typeError
termination_by sizeOf sp + 1
decreasing_by
all_goals simp
all_goals first
| (have h1 := sizeOf_pyGet hi; simp at h1; omega)
| omega

/--
`handle_record_type(safe_name, schema_property, mode="NULLABLE")`:
```python
fields = [column_type(col, t) for col, t in schema_property.get('properties', {}).items()]
if fields:
    return SchemaField(safe_name, 'RECORD', mode, fields=fields)
else:
    return SchemaField(safe_name, 'string', mode)
```
-/
def handleRecordType (safe_name : String) (sp : JVal) (mode : String) :
    Except PyErr SchemaField :=
  match sp with
  | .obj spf =>
    match hp : pyGet spf "properties" with
    | none => pure ⟨safe_name, "string", mode, []⟩
    | some (.obj pl) => do
      let fields ← columnTypeList pl
      if fields.isEmpty then pure ⟨safe_name, "string", mode, []⟩
      else pure ⟨safe_name, "RECORD", mode, fields⟩
    | some _ => throw .typeError
  | _ => throw .typeError
termination_by sizeOf sp
decreasing_by
have h1 := sizeOf_pyGet hp
simp at h1 ⊢
omega

/-- The list comprehension over the properties in `handle_record_type`. -/
def columnTypeList (l : List (String × JVal)) : Except PyErr (List SchemaField) :=
  match l with
  | [] => pure []
  | (col, t) :: rest => do
    let f ← columnType col t
    let fs ← columnTypeList rest
    pure (f :: fs)
termination_by sizeOf l
decreasing_by
all_goals simp +arith
all_goals try omega

end

/-! ### `DbSync.version_column` (C3)

`re.sub(r"[0-9]{8}_[0-9]{4}", "", s)` removes every (leftmost,
non-overlapping) occurrence of eight digits, an underscore and four digits —
the `time.strftime("%Y%m%d_%H%M")` timestamp shape. -/

/-- Does the character list start with `[0-9]{8}_[0-9]{4}`?  (Exactly eight
digits, since a ninth digit would displace the underscore.) -/
def hasDtAt (cs : List Char) : Bool :=
  decide ((cs.take 8).length = 8) && (cs.take 8).all isDigitCh &&
  decide ((cs.drop 8).take 1 = [Char.ofNat 95]) &&
  decide (((cs.drop 9).take 4).length = 4) && ((cs.drop 9).take 4).all isDigitCh

/-- Left-to-right scan of `re.sub`: on a match, delete the 13 matched
characters and continue after them; otherwise keep one character.  The fuel
argument (any bound on the length) makes the recursion structural. -/
def stripDtGo : Nat → List Char → List Char
  | 0, _ => []
  | _ + 1, [] => []
  | fuel + 1, c :: rest =>
    if hasDtAt (c :: rest) then stripDtGo fuel ((c :: rest).drop 13)
    else c :: stripDtGo fuel rest

def stripDtAux (cs : List Char) : List Char := stripDtGo cs.length cs

/-- `re.sub(r"[0-9]{8}_[0-9]{4}", "", s)`. -/
def stripDt (s : String) : String := String.mk (stripDtAux s.data)

/-- A string of the exact `time.strftime("%Y%m%d_%H%M")` shape. -/
def isDtStamp (t : String) : Bool := hasDtAt t.data && decide (t.data.length = 13)

/-- `DbSync.alias_field(field, alias)`: the same field under another name. -/
def aliasField (field : SchemaField) (aliasName : String) : SchemaField :=
  { field with name := aliasName }

/-- `col_type_suffixes` from `version_column`. -/
def colTypeSuffixes : List (String × String) :=
  [("timestamp", "ti"), ("time", "tm"), ("numeric", "de"), ("string", "st"),
   ("int64", "it"), ("integer", "it"), ("bool", "bo"), ("boolean", "bo"),
   ("array", "arr"), ("struct", "sct")]

/-- The outcome of one `version_column` call: the updated `renamed_columns`
mapping, the column added by `add_column` (if any), and the table's columns
afterwards (`get_table_columns` keys columns by field name). -/
structure VersionColumnResult where
  renamed_columns : List (String × String)
  added : Option SchemaField
  table_columns : List (String × SchemaField)
  deriving DecidableEq, Repr

/--
`DbSync.version_column(field, stream)`:
```python
column = safe_column_name(field.name, quotes=False)
col_type_suffixes = {...}
if field.field_type == 'REPEATED':
    field_with_type_suffix = '{}__{}{}'.format(column, col_type_suffixes['array'], time.strftime("%Y%m%d_%H%M"))
elif field.field_type == 'RECORD':
    field_with_type_suffix = '{}__{}{}'.format(column, col_type_suffixes['struct'], time.strftime("%Y%m%d_%H%M"))
else:
    field_with_type_suffix = '{}__{}'.format(column, col_type_suffixes[field.field_type])
field_without_dt_suffix = re.sub(r"[0-9]{8}_[0-9]{4}", "", field_with_type_suffix)
table_columns = self.get_table_columns(table_name)
for col, schemafield in table_columns.items():
    col_without_dt_suffix = re.sub(r"[0-9]{8}_[0-9]{4}", "", col)
    if (col_without_dt_suffix in [column, field_without_dt_suffix] and
        self.alias_field(field, '') == self.alias_field(schemafield, '')):
        self.renamed_columns[column] = col
if not column in self.renamed_columns:
    self.add_column(self.alias_field(field, field_with_type_suffix), stream)
    self.renamed_columns[column] = field_with_type_suffix
```
`time.strftime` is the `nowStr` input; an unknown scalar field type raises
`KeyError`.
-/
def versionColumn (field : SchemaField) (table_columns : List (String × SchemaField))
    (renamed_columns : List (String × String)) (nowStr : String) :
    Except PyErr VersionColumnResult :=
  let column := safeColumnName field.name
  let suffixE : Except PyErr String :=
    if field.field_type = "REPEATED" then
      match pyGet colTypeSuffixes "array" with
      | some su => .ok (column ++ "__" ++ su ++ nowStr)
      | none => .error .keyError
    else if field.field_type = "RECORD" then
      match pyGet colTypeSuffixes "struct" with
      | some su => .ok (column ++ "__" ++ su ++ nowStr)
      | none => .error .keyError
    else
      match pyGet colTypeSuffixes field.field_type with
      | some su => .ok (column ++ "__" ++ su)
      | none => .error .keyError
  match suffixE with
  | .error e => .error e
  | .ok field_with_type_suffix =>
    let field_without_dt_suffix := stripDt field_with_type_suffix
    let renamed1 := table_columns.foldl (fun rn (cs : String × SchemaField) =>
      if (stripDt cs.1 = column ∨ stripDt cs.1 = field_without_dt_suffix) ∧
          aliasField field "" = aliasField cs.2 "" then
        pySet rn column cs.1
      else rn) renamed_columns
    if (pyGet renamed1 column).isSome then
      .ok ⟨renamed1, none, table_columns⟩
    else
      .ok ⟨pySet renamed1 column field_with_type_suffix,
        some (aliasField field field_with_type_suffix),
        table_columns ++ [(field_with_type_suffix, aliasField field field_with_type_suffix)]⟩

/--
The trigger of column versioning, `DbSync.update_columns`:
```python
columns_to_replace = [
    column_type(name, properties_schema)
    for (name, properties_schema) in self.flatten_schema.items()
    if name.lower() in columns and
       columns[name.lower()] != column_type(name, properties_schema)
]
```
-/
def columnsToReplace (flattenedSchema : List (String × JVal))
    (columns : List (String × SchemaField)) : Except PyErr (List SchemaField) :=
  match flattenedSchema with
  | [] => pure []
  | (name, props) :: rest => do
    let keep ←
      if (pyGet columns (asciiLowerStr name)).isSome then do
        let ct ← columnType name props
        pure (decide (¬ pyGet columns (asciiLowerStr name) = some ct))
      else pure false
    let hd ← if keep then do
        let ct ← columnType name props
        pure [ct]
      else pure ([] : List SchemaField)
    let tl ← columnsToReplace rest columns
    pure (hd ++ tl)

/-! ### Lemmas about `stripDt` -/

theorem stripDtGo_nil (fuel : Nat) : stripDtGo fuel [] = [] := by
  cases fuel <;> rfl

theorem hasDtAt_false_of_short (cs : List Char) (h : cs.length < 13) :
    hasDtAt cs = false := by
  by_contra hcon
  rw [Bool.not_eq_false] at hcon
  simp only [hasDtAt, Bool.and_eq_true, decide_eq_true_eq, List.all_eq_true] at hcon
  obtain ⟨⟨⟨⟨h1, _⟩, h3⟩, h4⟩, _⟩ := hcon
  simp only [List.length_take] at h1
  have h3l := congrArg List.length h3
  simp only [List.length_take, List.length_drop, List.length_singleton] at h3l
  simp only [List.length_take, List.length_drop] at h4
  omega

theorem stripDtGo_congr_fuel (f1 : Nat) : ∀ (f2 : Nat) (cs : List Char),
    cs.length ≤ f1 → cs.length ≤ f2 → stripDtGo f1 cs = stripDtGo f2 cs := by
  induction f1 using Nat.strong_induction_on with
  | _ f1 ih =>
    intro f2 cs h1 h2
    match cs with
    | [] => rw [stripDtGo_nil, stripDtGo_nil]
    | c :: rest =>
      simp only [List.length_cons] at h1 h2
      cases f1 with
      | zero => omega
      | succ a =>
        cases f2 with
        | zero => omega
        | succ b =>
          simp only [stripDtGo]
          by_cases hdt : hasDtAt (c :: rest) = true
          · rw [if_pos hdt, if_pos hdt]
            exact ih a (by omega) b ((c :: rest).drop 13)
              (by simp only [List.length_drop, List.length_cons]; omega)
              (by simp only [List.length_drop, List.length_cons]; omega)
          · rw [if_neg hdt, if_neg hdt,
              ih a (by omega) b rest (by omega) (by omega)]

theorem hasDtAt_append_of_le (xs ys : List Char) (h : 13 ≤ xs.length) :
    hasDtAt (xs ++ ys) = hasDtAt xs := by
  unfold hasDtAt
  rw [List.take_append_of_le_length (by omega),
    List.drop_append_of_le_length (show 8 ≤ xs.length by omega),
    List.take_append_of_le_length (show 1 ≤ (xs.drop 8).length by simp; omega),
    List.drop_append_of_le_length (show 9 ≤ xs.length by omega),
    List.take_append_of_le_length (show 4 ≤ (xs.drop 9).length by simp; omega)]

/-- Every decomposition `xs = zs ++ [c]` ends in a character that is neither a
digit nor an underscore; vacuously true of the empty list. -/
def lastBlocked (xs : List Char) : Prop :=
  ∀ zs c, xs = zs ++ [c] → isDigitCh c = false ∧ c.toNat ≠ 95

theorem lastBlocked_concat (l : List Char) (c : Char)
    (h1 : isDigitCh c = false) (h2 : c.toNat ≠ 95) : lastBlocked (l ++ [c]) := by
  intro zs c' hEq
  have hlen : l.length = zs.length := by
    have := congrArg List.length hEq; simp at this; omega
  obtain ⟨-, h4⟩ := List.append_inj_of_length_left hEq hlen
  simp only [List.cons.injEq, and_true] at h4
  rw [← h4]
  exact ⟨h1, h2⟩

theorem lastBlocked_drop (xs : List Char) (n : Nat) (h : lastBlocked xs) :
    lastBlocked (xs.drop n) := by
  intro zs c hEq
  apply h (xs.take n ++ zs) c
  conv_lhs => rw [← List.take_append_drop n xs]
  rw [hEq, ← List.append_assoc]

theorem lastBlocked_tail (x : Char) (rest : List Char)
    (h : lastBlocked (x :: rest)) : lastBlocked rest := by
  intro zs c hEq
  exact h (x :: zs) c (by rw [hEq]; rfl)

theorem hasDtAt_append_false (xs ys : List Char) (hb : lastBlocked xs)
    (hne : xs ≠ []) (hlt : xs.length < 13) : hasDtAt (xs ++ ys) = false := by
  obtain ⟨zs, c, rfl⟩ : ∃ zs c, xs = zs ++ [c] := by
    rcases List.eq_nil_or_concat xs with h' | ⟨L, b, rfl⟩
    · exact absurd h' hne
    · exact ⟨L, b, by simp⟩
  obtain ⟨hd, hu⟩ := hb zs c rfl
  simp only [List.length_append, List.length_singleton] at hlt
  by_contra hcon
  rw [Bool.not_eq_false] at hcon
  simp only [hasDtAt, Bool.and_eq_true, decide_eq_true_eq, List.all_eq_true] at hcon
  obtain ⟨⟨⟨⟨h1, h2⟩, h3⟩, h4⟩, h5⟩ := hcon
  have hget : ((zs ++ [c]) ++ ys)[zs.length]? = some c := by
    rw [List.append_assoc, List.getElem?_append_right (Nat.le_refl _), Nat.sub_self]
    simp
  rcases Nat.lt_or_ge zs.length 8 with hn8 | hn8
  · have hmem : c ∈ ((zs ++ [c]) ++ ys).take 8 :=
      List.getElem?_mem (by rw [List.getElem?_take_of_lt hn8]; exact hget)
    rw [h2 c hmem] at hd
    exact absurd hd (by simp)
  · rcases Nat.lt_or_ge zs.length 9 with hn9 | hn9
    · have hn : zs.length = 8 := by omega
      have h8 : (((zs ++ [c]) ++ ys).drop 8)[0]? = some c := by
        rw [List.getElem?_drop, Nat.add_zero, ← hn]
        exact hget
      have h95 : ((((zs ++ [c]) ++ ys).drop 8).take 1)[0]? = some (Char.ofNat 95) := by
        rw [h3]
        rfl
      rw [List.getElem?_take_of_lt (by omega), h8] at h95
      have : c = Char.ofNat 95 := by injection h95
      rw [this] at hu
      exact hu (by decide)
    · have hidx : ((((zs ++ [c]) ++ ys).drop 9).take 4)[zs.length - 9]? = some c := by
        rw [List.getElem?_take_of_lt (by omega), List.getElem?_drop,
          show 9 + (zs.length - 9) = zs.length by omega]
        exact hget
      rw [h5 c (List.getElem?_mem hidx)] at hd
      exact absurd hd (by simp)

/-- Scanning a concatenation whose left part does not end in a digit or an
underscore strips each part independently: no timestamp match can straddle the
boundary. -/
theorem stripDtGo_append (fuel : Nat) : ∀ (xs ys : List Char), lastBlocked xs →
    xs.length + ys.length ≤ fuel →
    stripDtGo fuel (xs ++ ys) = stripDtGo fuel xs ++ stripDtGo fuel ys := by
  induction fuel using Nat.strong_induction_on with
  | _ fuel ih =>
    intro xs ys hb hlen
    match xs with
    | [] => simp [stripDtGo_nil]
    | x :: rest =>
      simp only [List.length_cons] at hlen
      cases fuel with
      | zero => omega
      | succ f =>
        have hxr : (x :: rest) ++ ys = x :: (rest ++ ys) := rfl
        rw [hxr]
        simp only [stripDtGo]
        have hgate : hasDtAt (x :: (rest ++ ys)) = hasDtAt ((x :: rest) ++ ys) := by
          rw [hxr]
        by_cases h13 : 13 ≤ (x :: rest).length
        · rw [hgate, hasDtAt_append_of_le (x :: rest) ys h13]
          by_cases hdt : hasDtAt (x :: rest) = true
          · rw [if_pos hdt, if_pos hdt,
              show (x :: (rest ++ ys)).drop 13 = (x :: rest).drop 13 ++ ys from by
                rw [← hxr]; exact List.drop_append_of_le_length h13,
              ih f (by omega) ((x :: rest).drop 13) ys (lastBlocked_drop _ _ hb)
                (by simp only [List.length_drop, List.length_cons]; omega),
              stripDtGo_congr_fuel f (f + 1) ys (by simp only [List.length_cons] at h13; omega)
                (by simp only [List.length_cons] at h13; omega)]
          · rw [if_neg hdt, if_neg hdt,
              ih f (by omega) rest ys (lastBlocked_tail _ _ hb) (by omega),
              stripDtGo_congr_fuel f (f + 1) ys (by omega) (by omega)]
            rfl
        · have hfx : hasDtAt (x :: rest) = false :=
            hasDtAt_false_of_short _ (by omega)
          have hfa : hasDtAt ((x :: rest) ++ ys) = false :=
            hasDtAt_append_false (x :: rest) ys hb (by simp) (by omega)
          rw [hgate, hfa, if_neg (by simp), hfx, if_neg (by simp),
            ih f (by omega) rest ys (lastBlocked_tail _ _ hb) (by omega),
            stripDtGo_congr_fuel f (f + 1) ys (by omega) (by omega)]
          rfl

theorem stripDtAux_append (xs ys : List Char) (hb : lastBlocked xs) :
    stripDtAux (xs ++ ys) = stripDtAux xs ++ stripDtAux ys := by
  unfold stripDtAux
  rw [List.length_append,
    stripDtGo_append (xs.length + ys.length) xs ys hb (Nat.le_refl _),
    stripDtGo_congr_fuel (xs.length + ys.length) xs.length xs (by omega) (Nat.le_refl _),
    stripDtGo_congr_fuel (xs.length + ys.length) ys.length ys (by omega) (Nat.le_refl _)]

/-- A string of the exact timestamp shape strips to nothing. -/
theorem stripDtAux_stamp (cs : List Char) (h1 : hasDtAt cs = true)
    (h2 : cs.length = 13) : stripDtAux cs = [] := by
  match cs with
  | [] => simp at h2
  | c :: rest =>
    simp only [List.length_cons] at h2
    simp only [stripDtAux, List.length_cons, h2, stripDtGo, if_pos h1]
    rw [List.drop_eq_nil_of_le (by simp; omega), stripDtGo_nil]

/-- Appending a `strftime("%Y%m%d_%H%M")` stamp to a name that ends in a
letter does not change its `re.sub`-stripped form. -/
theorem stripDt_append_stamp (base now : String) (hb : lastBlocked base.data)
    (hnow : isDtStamp now = true) : stripDt (base ++ now) = stripDt base := by
  simp only [isDtStamp, Bool.and_eq_true, decide_eq_true_eq] at hnow
  simp only [stripDt]
  rw [show (base ++ now).data = base.data ++ now.data from rfl,
    stripDtAux_append base.data now.data hb,
    stripDtAux_stamp now.data hnow.1 hnow.2, List.append_nil]

/-! ### C3: column versioning on type change -/

theorem foldl_fix {α β : Type} (f : α → β → α) (l : List β) (a : α)
    (h : ∀ b ∈ l, ∀ acc, f acc b = acc) : l.foldl f a = a := by
  induction l generalizing a with
  | nil => rfl
  | cons x xs ih =>
    simp only [List.foldl_cons]
    rw [h x (by simp), ih _ (fun b hb acc => h b (by simp [hb]) acc)]

theorem aliasField_alias (f : SchemaField) (x y : String) :
    aliasField (aliasField f x) y = aliasField f y := rfl

theorem lastBlocked_string_sct (s : String) : lastBlocked (s ++ "__" ++ "sct").data := by
  have h : (s ++ "__" ++ "sct").data = ((s ++ "__").data ++ ['s', 'c']) ++ ['t'] := by
    rw [show (s ++ "__" ++ "sct").data = (s ++ "__").data ++ "sct".data from rfl]
    rw [List.append_assoc]
    rfl
  rw [h]
  exact lastBlocked_concat _ 't' (by decide) (by decide)

/-- Unfolding of `versionColumn` for a scalar field type found in
`col_type_suffixes`. -/
theorem versionColumn_scalar (field : SchemaField) (T : List (String × SchemaField))
    (rn : List (String × String)) (now su : String)
    (h1 : field.field_type ≠ "REPEATED") (h2 : field.field_type ≠ "RECORD")
    (h3 : pyGet colTypeSuffixes field.field_type = some su) :
    versionColumn field T rn now =
      (if (pyGet (T.foldl (fun rn cs =>
            if (stripDt cs.1 = safeColumnName field.name ∨
                stripDt cs.1 = stripDt (safeColumnName field.name ++ "__" ++ su)) ∧
                aliasField field "" = aliasField cs.2 "" then
              pySet rn (safeColumnName field.name) cs.1
            else rn) rn) (safeColumnName field.name)).isSome then
        .ok ⟨T.foldl (fun rn cs =>
            if (stripDt cs.1 = safeColumnName field.name ∨
                stripDt cs.1 = stripDt (safeColumnName field.name ++ "__" ++ su)) ∧
                aliasField field "" = aliasField cs.2 "" then
              pySet rn (safeColumnName field.name) cs.1
            else rn) rn, none, T⟩
      else
        .ok ⟨pySet (T.foldl (fun rn cs =>
            if (stripDt cs.1 = safeColumnName field.name ∨
                stripDt cs.1 = stripDt (safeColumnName field.name ++ "__" ++ su)) ∧
                aliasField field "" = aliasField cs.2 "" then
              pySet rn (safeColumnName field.name) cs.1
            else rn) rn) (safeColumnName field.name)
            (safeColumnName field.name ++ "__" ++ su),
          some (aliasField field (safeColumnName field.name ++ "__" ++ su)),
          T ++ [(safeColumnName field.name ++ "__" ++ su,
            aliasField field (safeColumnName field.name ++ "__" ++ su))]⟩) := by
  simp only [versionColumn]
  rw [if_neg h1, if_neg h2, h3]

/-- Unfolding of `versionColumn` for a `RECORD` field. -/
theorem versionColumn_record (field : SchemaField) (T : List (String × SchemaField))
    (rn : List (String × String)) (now : String)
    (h1 : field.field_type ≠ "REPEATED") (h2 : field.field_type = "RECORD") :
    versionColumn field T rn now =
      (if (pyGet (T.foldl (fun rn cs =>
            if (stripDt cs.1 = safeColumnName field.name ∨
                stripDt cs.1 = stripDt (safeColumnName field.name ++ "__" ++ "sct" ++ now)) ∧
                aliasField field "" = aliasField cs.2 "" then
              pySet rn (safeColumnName field.name) cs.1
            else rn) rn) (safeColumnName field.name)).isSome then
        .ok ⟨T.foldl (fun rn cs =>
            if (stripDt cs.1 = safeColumnName field.name ∨
                stripDt cs.1 = stripDt (safeColumnName field.name ++ "__" ++ "sct" ++ now)) ∧
                aliasField field "" = aliasField cs.2 "" then
              pySet rn (safeColumnName field.name) cs.1
            else rn) rn, none, T⟩
      else
        .ok ⟨pySet (T.foldl (fun rn cs =>
            if (stripDt cs.1 = safeColumnName field.name ∨
                stripDt cs.1 = stripDt (safeColumnName field.name ++ "__" ++ "sct" ++ now)) ∧
                aliasField field "" = aliasField cs.2 "" then
              pySet rn (safeColumnName field.name) cs.1
            else rn) rn) (safeColumnName field.name)
            (safeColumnName field.name ++ "__" ++ "sct" ++ now),
          some (aliasField field (safeColumnName field.name ++ "__" ++ "sct" ++ now)),
          T ++ [(safeColumnName field.name ++ "__" ++ "sct" ++ now,
            aliasField field (safeColumnName field.name ++ "__" ++ "sct" ++ now))]⟩) := by
  simp only [versionColumn]
  rw [if_neg h1, if_pos h2]
  rfl

/-- **C3** (counterexample): a repeated *scalar* field carries its
repeatedness in `mode`, not in `field_type` — `column_type` maps a JSON
`array`-of-`string` property to `SchemaField(name, 'string', 'REPEATED')` —
so `version_column`'s `field.field_type == 'REPEATED'` test does not fire and
the versioned name `c__st` gets no timestamp suffix, although the new
physical representation is repeated.  (`stripDt` of the versioned name is the
name itself: it contains no timestamp to strip.) -/
theorem c3_column_versioning_counterexample :
    columnType "c" (.obj [("type", .arr [.s "array"]),
        ("items", .obj [("type", .arr [.s "string"])])]) =
      .ok ⟨"c", "string", "REPEATED", []⟩ ∧
    versionColumn ⟨"c", "string", "REPEATED", []⟩
        [("c", ⟨"c", "string", "NULLABLE", []⟩)] [] "20240101_0101" =
      .ok ⟨[("c", "c__st")], some ⟨"c__st", "string", "REPEATED", []⟩,
        [("c", ⟨"c", "string", "NULLABLE", []⟩),
         ("c__st", ⟨"c__st", "string", "REPEATED", []⟩)]⟩ ∧
    stripDt "c__st" = "c__st" := by
  refine ⟨?_, ?_, ?_⟩
  · rw [columnType]
    rfl
  · rfl
  · rfl

/-- **C3** (amended): when an existing column is re-declared at a different
type, the original column entry is left untouched and a new column is added
under the deterministic name `column + "__" + type-code`; the
`strftime("%Y%m%d_%H%M")` timestamp is appended only when the *field type* of
the new column is `RECORD` (or the dead `'REPEATED'` branch) — not merely
when its mode is repeated.  Provided no existing column already matches
(after stripping timestamp shapes), the first call records
`column ↦ versioned name` in `renamed_columns` and adds the column; a
repetition of the same type change — even at a later timestamp — finds the
previously versioned column again, adds nothing, and reuses the recorded
name. -/
theorem c3_column_versioning_amended :
    (∀ (field : SchemaField) (T : List (String × SchemaField)) (su now now2 : String),
      field.field_type ≠ "REPEATED" → field.field_type ≠ "RECORD" →
      pyGet colTypeSuffixes field.field_type = some su →
      (∀ p ∈ T, ¬ ((stripDt p.1 = safeColumnName field.name ∨
          stripDt p.1 = stripDt (safeColumnName field.name ++ "__" ++ su)) ∧
         aliasField field "" = aliasField p.2 "")) →
      versionColumn field T [] now =
        .ok ⟨[(safeColumnName field.name, safeColumnName field.name ++ "__" ++ su)],
          some (aliasField field (safeColumnName field.name ++ "__" ++ su)),
          T ++ [(safeColumnName field.name ++ "__" ++ su,
            aliasField field (safeColumnName field.name ++ "__" ++ su))]⟩ ∧
      versionColumn field
          (T ++ [(safeColumnName field.name ++ "__" ++ su,
            aliasField field (safeColumnName field.name ++ "__" ++ su))]) [] now2 =
        .ok ⟨[(safeColumnName field.name, safeColumnName field.name ++ "__" ++ su)], none,
          T ++ [(safeColumnName field.name ++ "__" ++ su,
            aliasField field (safeColumnName field.name ++ "__" ++ su))]⟩) ∧
    (∀ (field : SchemaField) (T : List (String × SchemaField)) (now now2 : String),
      field.field_type = "RECORD" → isDtStamp now = true → isDtStamp now2 = true →
      (∀ p ∈ T, ¬ ((stripDt p.1 = safeColumnName field.name ∨
          stripDt p.1 = stripDt (safeColumnName field.name ++ "__" ++ "sct")) ∧
         aliasField field "" = aliasField p.2 "")) →
      versionColumn field T [] now =
        .ok ⟨[(safeColumnName field.name,
            safeColumnName field.name ++ "__" ++ "sct" ++ now)],
          some (aliasField field (safeColumnName field.name ++ "__" ++ "sct" ++ now)),
          T ++ [(safeColumnName field.name ++ "__" ++ "sct" ++ now,
            aliasField field (safeColumnName field.name ++ "__" ++ "sct" ++ now))]⟩ ∧
      versionColumn field
          (T ++ [(safeColumnName field.name ++ "__" ++ "sct" ++ now,
            aliasField field (safeColumnName field.name ++ "__" ++ "sct" ++ now))]) [] now2 =
        .ok ⟨[(safeColumnName field.name,
            safeColumnName field.name ++ "__" ++ "sct" ++ now)], none,
          T ++ [(safeColumnName field.name ++ "__" ++ "sct" ++ now,
            aliasField field (safeColumnName field.name ++ "__" ++ "sct" ++ now))]⟩) := by
  constructor
  · intro field T su now now2 h1 h2 h3 hnm
    have hT : ∀ rn0, T.foldl (fun (rn : List (String × String)) (cs : String × SchemaField) =>
        if (stripDt cs.1 = safeColumnName field.name ∨
            stripDt cs.1 = stripDt (safeColumnName field.name ++ "__" ++ su)) ∧
            aliasField field "" = aliasField cs.2 "" then
          pySet rn (safeColumnName field.name) cs.1
        else rn) rn0 = rn0 :=
      fun rn0 => foldl_fix _ T rn0 (fun p hp acc => if_neg (hnm p hp))
    constructor
    · rw [versionColumn_scalar field T [] now su h1 h2 h3, hT]
      rfl
    · rw [versionColumn_scalar field _ [] now2 su h1 h2 h3, List.foldl_append, hT]
      simp only [List.foldl_cons, List.foldl_nil, aliasField_alias, or_true, and_true,
        if_true, pyGet_pySet_self, Option.isSome_some]
      rfl
  · intro field T now now2 h2 hs1 hs2 hnm
    have h1 : field.field_type ≠ "REPEATED" := by simp [h2]
    have hstrip : ∀ nw, isDtStamp nw = true →
        stripDt (safeColumnName field.name ++ "__" ++ "sct" ++ nw) =
          stripDt (safeColumnName field.name ++ "__" ++ "sct") :=
      fun nw hw => stripDt_append_stamp _ nw (lastBlocked_string_sct _) hw
    have hT : ∀ rn0, T.foldl (fun (rn : List (String × String)) (cs : String × SchemaField) =>
        if (stripDt cs.1 = safeColumnName field.name ∨
            stripDt cs.1 = stripDt (safeColumnName field.name ++ "__" ++ "sct")) ∧
            aliasField field "" = aliasField cs.2 "" then
          pySet rn (safeColumnName field.name) cs.1
        else rn) rn0 = rn0 :=
      fun rn0 => foldl_fix _ T rn0 (fun p hp acc => if_neg (hnm p hp))
    constructor
    · rw [versionColumn_record field T [] now h1 h2, hstrip now hs1, hT]
      rfl
    · rw [versionColumn_record field _ [] now2 h1 h2, hstrip now2 hs2,
        List.foldl_append, hT]
      simp only [List.foldl_cons, List.foldl_nil, aliasField_alias]
      rw [hstrip now hs1]
      simp only [or_true, and_true, if_true, pyGet_pySet_self, Option.isSome_some]
      rfl

/-- **C3** (witness): concrete instances of both parts of the amended
theorem: a scalar `string` type change versions `a` to `a__st` (no
timestamp); a `RECORD` change versions `r` to `r__sct20240101_0101`, and
repeating it at timestamp `20240202_0202` adds nothing and reuses
`r__sct20240101_0101`. -/
theorem c3_column_versioning_amended_witness :
    versionColumn ⟨"a", "string", "NULLABLE", []⟩
        [("b", ⟨"b", "integer", "NULLABLE", []⟩)] [] "x" =
      .ok ⟨[("a", "a__st")], some ⟨"a__st", "string", "NULLABLE", []⟩,
        [("b", ⟨"b", "integer", "NULLABLE", []⟩),
         ("a__st", ⟨"a__st", "string", "NULLABLE", []⟩)]⟩ ∧
    versionColumn ⟨"r", "RECORD", "NULLABLE", []⟩ [] [] "20240101_0101" =
      .ok ⟨[("r", "r__sct20240101_0101")],
        some ⟨"r__sct20240101_0101", "RECORD", "NULLABLE", []⟩,
        [("r__sct20240101_0101", ⟨"r__sct20240101_0101", "RECORD", "NULLABLE", []⟩)]⟩ ∧
    versionColumn ⟨"r", "RECORD", "NULLABLE", []⟩
        [("r__sct20240101_0101", ⟨"r__sct20240101_0101", "RECORD", "NULLABLE", []⟩)]
        [] "20240202_0202" =
      .ok ⟨[("r", "r__sct20240101_0101")], none,
        [("r__sct20240101_0101", ⟨"r__sct20240101_0101", "RECORD", "NULLABLE", []⟩)]⟩ := by
  refine ⟨(c3_column_versioning_amended.1 ⟨"a", "string", "NULLABLE", []⟩
      [("b", ⟨"b", "integer", "NULLABLE", []⟩)] "st" "x" "y"
      (by decide) (by decide) (by decide) (by decide)).1, ?_, ?_⟩
  · exact (c3_column_versioning_amended.2 ⟨"r", "RECORD", "NULLABLE", []⟩ []
      "20240101_0101" "20240202_0202" rfl (by decide) (by decide) (by simp)).1
  · exact (c3_column_versioning_amended.2 ⟨"r", "RECORD", "NULLABLE", []⟩ []
      "20240101_0101" "20240202_0202" rfl (by decide) (by decide) (by simp)).2

/-! ### C5: table creation and clustering -/

/-- The observable state of the table object handed to
`client.create_table`: google-cloud-bigquery's `Table` leaves
`clustering_fields` at `None` unless it is assigned. -/
structure BQTable where
  full_name : String
  schema : List SchemaField
  clustering_fields : Option (List String)
  has_expiry : Bool
  deriving DecidableEq, Repr

/--
`DbSync.create_table(is_temporary=False)`:
```python
schema = [column_type(name, schema) for (name, schema) in self.flatten_schema.items()]
table = Table('{}.{}.{}'.format(project_id, dataset_id, table_name), schema)
if is_temporary:
    table.expires = datetime.datetime.now() + datetime.timedelta(days=1)
client.create_table(table, schema)
```
No attribute of `table` other than `expires` is ever assigned, so
`clustering_fields` keeps its `None` default.
-/
def createTable (project_id dataset_id table_name : String)
    (flattenedSchema : List (String × JVal)) (is_temporary : Bool) :
    Except PyErr BQTable := do
  let schema ← columnTypeList flattenedSchema
  pure ⟨project_id ++ "." ++ dataset_id ++ "." ++ table_name, schema, none, is_temporary⟩

/-- **C5** (code bug): every table `create_table` submits to BigQuery has
`clustering_fields = None` — the primary-key columns are never installed as
the clustering key, contradicting both the spec and the repository's own
integration tests (`test_table_with_pk_adds_clustering` expects column
`c_pk` at clustering ordinal position 1). -/
theorem c5_clustering_code_bug (project_id dataset_id table_name : String)
    (fs : List (String × JVal)) (tmp : Bool) (t : BQTable)
    (h : createTable project_id dataset_id table_name fs tmp = .ok t) :
    t.clustering_fields = none := by
  simp only [createTable] at h
  obtain ⟨s, -, hpure⟩ := exceptBind_eq_ok h
  rw [← exceptPure_eq_ok hpure]

/-- **C5** (witness): creating the clustering test's table (single integer
primary-key column `c_pk`) yields a table without clustering fields. -/
theorem c5_clustering_code_bug_witness :
    ∃ t : BQTable,
      createTable "p" "d" "test_table_cluster"
        [("c_pk", .obj [("type", .arr [.s "integer"])])] false = .ok t ∧
      t.clustering_fields = none := by
  have h : createTable "p" "d" "test_table_cluster"
      [("c_pk", .obj [("type", .arr [.s "integer"])])] false =
      .ok ⟨"p.d.test_table_cluster", [⟨"c_pk", "integer", "NULLABLE", []⟩], none, false⟩ := by
    simp only [createTable]
    rw [columnTypeList, columnType, columnTypeList]
    rfl
  exact ⟨_, h, c5_clustering_code_bug "p" "d" "test_table_cluster" _ false _ h⟩

/-! ### C9: flush concurrency (`flush_streams` in `__init__.py`) -/

/-- The decision `flush_streams` makes about how to run the loads: one
stream runs inline, several run on a `Pool(parallelism)`. -/
inductive FlushExec where
  | inl (stream : String)
  | pool (workers : Int) (streams : List String)
  deriving DecidableEq, Repr

/--
```python
if filter_streams:
    streams_to_flush = filter_streams
else:
    streams_to_flush = list(streams.keys())
```
Python truthiness: `None` and the empty list both select every stream.
-/
def streamsToFlush (streamKeys : List String)
    (filter_streams : Option (List String)) : List String :=
  match filter_streams with
  | some fs => if fs.isEmpty then streamKeys else fs
  | none => streamKeys

/--
The concurrency logic of `flush_streams`:
```python
parallelism = config.get("parallelism", DEFAULT_PARALLELISM)
max_parallelism = config.get("max_parallelism", DEFAULT_MAX_PARALLELISM)
if parallelism == 0:
    n_streams_to_flush = len(streams.keys())
    if n_streams_to_flush > max_parallelism:
        parallelism = max_parallelism
    else:
        parallelism = n_streams_to_flush
if filter_streams: streams_to_flush = filter_streams
else: streams_to_flush = list(streams.keys())
if len(streams_to_flush) > 1:
    with Pool(parallelism) as pool: ...
else:
    load_stream_batch(stream=streams_to_flush[0], ...)
```
`streams_to_flush[0]` on an empty selection raises `IndexError`.
-/
def flushPlan (parallelism0 max_parallelism : Int) (streamKeys : List String)
    (filter_streams : Option (List String)) : Except PyErr FlushExec :=
  let parallelism : Int :=
    if parallelism0 = 0 then
      if (streamKeys.length : Int) > max_parallelism then max_parallelism
      else (streamKeys.length : Int)
    else parallelism0
  if (streamsToFlush streamKeys filter_streams).length > 1 then
    .ok (.pool parallelism (streamsToFlush streamKeys filter_streams))
  else
    match streamsToFlush streamKeys filter_streams with
    | s :: _ => .ok (.inl s)
    | [] => .error .keyError

/-- **C9** (counterexample): with auto parallelism (0), `max_parallelism = 16`,
three buffered streams and only two selected by `filter_streams`, the pool is
created with 3 workers — `len(streams.keys())`, all buffered streams — not
`min(number of streams to flush, max_parallelism) = 2` as the spec states. -/
theorem c9_flush_parallelism_counterexample :
    flushPlan 0 16 ["a", "b", "c"] (some ["a", "b"]) =
      .ok (.pool 3 ["a", "b"]) ∧
    (3 : Int) ≠ min (2 : Int) 16 := by
  exact ⟨rfl, by decide⟩

/-- **C9** (amended): a flush round with more than one selected stream runs
on a worker pool whose size is the configured parallelism, or, when that is
configured as 0 (auto), `min(number of *buffered* streams, max_parallelism)`
— the count taken over all of `streams.keys()`, not over the selection being
flushed; a round with exactly one selected stream loads it inline without a
pool.  The selection is `filter_streams` when that list is non-empty,
otherwise every buffered stream. -/
theorem c9_flush_parallelism_amended (p mp : Int) (keys stf : List String)
    (filter_streams : Option (List String))
    (hstf : stf = streamsToFlush keys filter_streams) :
    (1 < stf.length →
      flushPlan p mp keys filter_streams =
        .ok (.pool (if p = 0 then min (keys.length : Int) mp else p) stf)) ∧
    (∀ s, stf = [s] →
      flushPlan p mp keys filter_streams = .ok (.inl s)) := by
  constructor
  · intro hlen
    simp only [flushPlan]
    rw [← hstf, if_pos hlen]
    by_cases hp : p = 0
    · rw [if_pos hp, if_pos hp]
      have : ((if (keys.length : Int) > mp then mp else (keys.length : Int))) =
          min (keys.length : Int) mp := by
        simp only [min_def]
        split_ifs <;> omega
      rw [this]
    · rw [if_neg hp, if_neg hp]
  · intro s hs
    simp only [flushPlan]
    rw [← hstf, hs]
    rfl

/-- **C9** (witness): one buffered stream and no filter loads inline; two
streams at explicit parallelism 5 run on a 5-worker pool. -/
theorem c9_flush_parallelism_amended_witness :
    flushPlan 0 16 ["a"] none = .ok (.inl "a") ∧
    flushPlan 5 16 ["a", "b"] none = .ok (.pool 5 ["a", "b"]) := by
  refine ⟨(c9_flush_parallelism_amended 0 16 ["a"] ["a"] none rfl).2 "a" rfl, ?_⟩
  exact (c9_flush_parallelism_amended 5 16 ["a", "b"] ["a", "b"] none rfl).1 (by decide)

/-! ### C1/C2: the `persist_lines` batching loop and checkpoint emission

The loop is modelled for configurations without `validate_records`,
`add_metadata_columns`, `hard_delete`/`hard_delete_mapping` and
`batch_wait_limit_seconds` (each takes its Python default: no validation,
`o['record']` buffered as-is, `ACTIVATE_VERSION` ignored, and the time-based
`streams_to_flush_timestamp` set always empty). -/

/-- Python truthiness of a JSON value. -/
def jTruthy : JVal → Bool
  | .null => false
  | .b x => x
  | .i n => decide (n ≠ 0)
  | .s str => decide (str ≠ "")
  | .arr xs => decide (xs ≠ [])
  | .obj fields => decide (fields ≠ [])

/-- Truthiness of a maybe-`None` value (`if not flushed_state:`). -/
def optTruthy : Option JVal → Bool
  | none => false
  | some v => jTruthy v

/-- The `persist_lines` configuration knobs the C1/C2 claims range over. -/
structure TargetConfig where
  batch_size_rows : Nat
  flush_all_streams : Bool
  primary_key_required : Bool
  data_flattening_max_level : Nat
  deriving DecidableEq, Repr

/-- A parsed singer message (`json.loads` of a well-formed line; a RECORD's
`record` payload is its JSON object). -/
inductive Msg where
  | record (stream : String) (record : List (String × JVal))
  | schema (stream : String) (schema : JVal) (key_properties : List String)
  | activateVersion (stream : String)
  | state (value : JVal)
  deriving DecidableEq, Repr

/-- Observable actions, in order: a stream's buffered rows durably applied
to the warehouse (`load_stream_batch` with a positive row count), and an
emitted checkpoint (`emit_state`). -/
inductive Event where
  | loaded (stream : String) (records : List (String × JVal))
  | checkpoint (st : Option JVal)
  deriving DecidableEq, Repr

/-- The mutable program state of `persist_lines`.  `validators`,
`stream_to_sync` and `flush_timestamp` carry no information the claims
mention beyond what `schemas`/`key_properties` already hold. -/
structure PState where
  state : Option JVal
  flushed_state : Option JVal
  schemas : List (String × JVal)
  key_properties : List (String × List String)
  records_to_load : List (String × List (String × JVal))
  row_count : List (String × Nat)
  total_row_count : List (String × Nat)
  events : List Event
  deriving DecidableEq, Repr

def initialPState : PState := ⟨none, none, [], [], [], [], [], []⟩

/-- `stream_utils.adjust_timestamps_in_record(record, schema)`.

Modelled from the spec: `stream_utils` is a shared external module that is
not part of this repository's sources.  The spec describes record
normalization as coercing timestamp-typed fields into the warehouse's
representable range, which leaves records whose timestamp fields are already
in range unchanged; the model is that identity restriction. -/
def adjustTimestampsInRecord (record : List (String × JVal)) (schema : JVal) :
    List (String × JVal) := record

/-- `stream_utils.float_to_decimal(o['schema'])`: converts Python `float`
instances inside a nested value to `Decimal`.  The modelled `JVal` domain
has no separate float constructor, so on it the conversion is the
identity. -/
def floatToDecimal (v : JVal) : JVal := v

/-- Look up the bookmark of `stream` inside a checkpoint value
(`x['bookmarks'][stream]` when both levels exist and are dicts). -/
def bmLookup (x : Option JVal) (stream : String) : Option JVal :=
  match x with
  | some (.obj ff) =>
    match pyGet ff "bookmarks" with
    | some (.obj bm) => pyGet bm stream
    | _ => none
  | _ => none

/--
One iteration of the bookmark copy in `flush_streams` under a truthy
`filter_streams`:
```python
if state is not None and stream in state.get('bookmarks', {}):
    if 'bookmarks' not in flushed_state:
        flushed_state['bookmarks'] = {}
    flushed_state['bookmarks'][stream] = copy.deepcopy(state['bookmarks'][stream])
```
`'bookmarks' not in None` raises `TypeError`; non-dict `bookmarks`
containers are likewise modelled as `TypeError`.
-/
def copyBookmark (state flushed : Option JVal) (stream : String) :
    Except PyErr (Option JVal) :=
  match state with
  | none => .ok flushed
  | some (.obj sf) =>
    match pyGetD sf "bookmarks" (.obj []) with
    | .obj bmf =>
      if (pyGet bmf stream).isSome then
        match flushed with
        | some (.obj ff) =>
          let ff1 := if (pyGet ff "bookmarks").isSome then ff
                     else pySet ff "bookmarks" (.obj [])
          match pyGet ff1 "bookmarks" with
          | some (.obj fbm) =>
            .ok (some (.obj (pySet ff1 "bookmarks"
              (.obj (pySet fbm stream (pyGetD bmf stream .null))))))
          | _ => .error .typeError
        | _ => .error .typeError
      else .ok flushed
    | _ => .error .typeError
  | some _ => .error .typeError

/-- Intermediate result of `flush_streams`: the reset buffers and counters,
the updated `flushed_state`, and the load events performed. -/
structure FlushOutcome where
  records_to_load : List (String × List (String × JVal))
  row_count : List (String × Nat)
  flushed_state : Option JVal
  loads : List Event
  deriving DecidableEq, Repr

/-- The loads `flush_streams` performs (inline or via the pool, in
`streams_to_flush` order): `load_stream_batch` applies a stream's buffered
rows iff `row_count[stream] > 0`; missing keys raise `KeyError`. -/
def flushLoads (records_to_load : List (String × List (String × JVal)))
    (row_count : List (String × Nat)) : List String → Except PyErr (List Event)
  | [] => .ok []
  | s :: rest =>
    match pyGet row_count s, pyGet records_to_load s with
    | some rc, some recs =>
      match flushLoads records_to_load row_count rest with
      | .error e => .error e
      | .ok evs => .ok (if 0 < rc then Event.loaded s recs :: evs else evs)
    | _, _ => .error .keyError

/--
The post-load loop of `flush_streams`:
```python
for stream in streams_to_flush:
    streams[stream] = {}
    row_count[stream] = 0
    if filter_streams:
        if state is not None and stream in state.get('bookmarks', {}):
            ...copy bookmark (see copyBookmark)...
    else:
        flushed_state = copy.deepcopy(state)
```
-/
def flushLoop (state : Option JVal) (filter_streams : Option (List String)) :
    List String → FlushOutcome → Except PyErr FlushOutcome
  | [], acc => .ok acc
  | s :: rest, acc =>
    let rtl := pySet acc.records_to_load s []
    let rc := pySet acc.row_count s 0
    let flE : Except PyErr (Option JVal) :=
      match filter_streams with
      | some fs => if fs.isEmpty then .ok state else copyBookmark state acc.flushed_state s
      | none => .ok state
    match flE with
    | .error e => .error e
    | .ok fl => flushLoop state filter_streams rest ⟨rtl, rc, fl, acc.loads⟩

/-- `flush_streams(streams, row_count, stream_to_sync, config, state,
flushed_state, filter_streams)`: select the streams, load them, then reset
buffers and update `flushed_state` (see `flushLoop`). -/
def flushStreamsModel (records_to_load : List (String × List (String × JVal)))
    (row_count : List (String × Nat)) (state flushed : Option JVal)
    (filter_streams : Option (List String)) : Except PyErr FlushOutcome :=
  let streams_to_flush :=
    match filter_streams with
    | some fs => if fs.isEmpty then pyKeys records_to_load else fs
    | none => pyKeys records_to_load
  match flushLoads records_to_load row_count streams_to_flush with
  | .error e => .error e
  | .ok loads =>
    match flushLoop state filter_streams streams_to_flush
        ⟨records_to_load, row_count, flushed, []⟩ with
    | .error e => .error e
    | .ok out => .ok { out with loads := loads }

/--
The `t == 'RECORD'` branch of `persist_lines`.  The primary-key string is
falsy when `None` (no key properties) or empty (`return ','.join([])` or an
empty single key value); then the surrogate `'RID-{total_row_count}'` is
used.  `records_to_load[stream]`, `row_count[stream]` and
`total_row_count[stream]` exist for every stream whose SCHEMA was processed;
a missing entry is the Python `KeyError`.
-/
def stepRecord (cfg : TargetConfig) (ps : PState) (stream : String)
    (record0 : List (String × JVal)) : Except PyErr PState :=
  if (pyGet ps.schemas stream).isNone then .error .protocolError
  else
    let record := adjustTimestampsInRecord record0 (pyGetD ps.schemas stream .null)
    match pyGet ps.key_properties stream with
    | none => .error .keyError
    | some kp =>
      match recordPrimaryKeyString kp cfg.data_flattening_max_level record with
      | .error e => .error e
      | .ok pk0 =>
        match pyGet ps.total_row_count stream, pyGet ps.row_count stream,
            pyGet ps.records_to_load stream with
        | some tot, some rc, some buf =>
          let primary_key_string :=
            match pk0 with
            | some str => if str = "" then "RID-" ++ toString tot else str
            | none => "RID-" ++ toString tot
          let isNew := (pyGet buf primary_key_string).isNone
          let rc' := if isNew then rc + 1 else rc
          let tot' := if isNew then tot + 1 else tot
          let buf' := pySet buf primary_key_string (.obj record)
          let ps' : PState := { ps with
            records_to_load := pySet ps.records_to_load stream buf'
            row_count := pySet ps.row_count stream rc'
            total_row_count := pySet ps.total_row_count stream tot' }
          if cfg.batch_size_rows ≤ rc' then
            match flushStreamsModel ps'.records_to_load ps'.row_count ps'.state
                ps'.flushed_state
                (if cfg.flush_all_streams then none else some [stream]) with
            | .error e => .error e
            | .ok fr =>
              .ok { ps' with
                records_to_load := fr.records_to_load
                row_count := fr.row_count
                flushed_state := fr.flushed_state
                events := ps'.events ++ fr.loads ++ [.checkpoint fr.flushed_state] }
          else .ok ps'
        | _, _, _ => .error .keyError

/--
The `t == 'SCHEMA'` branch: store the schema, flush the stream's previous
records if any are buffered (emitting the resulting state), enforce
`primary_key_required`, then reset the stream's buffer and counters.
-/
def stepSchema (cfg : TargetConfig) (ps : PState) (stream : String)
    (schema : JVal) (kps : List String) : Except PyErr PState :=
  let ps1 := { ps with schemas := pySet ps.schemas stream (floatToDecimal schema) }
  let afterFlush : Except PyErr PState :=
    if 0 < pyGetD ps1.row_count stream 0 then
      match flushStreamsModel ps1.records_to_load ps1.row_count ps1.state
          ps1.flushed_state
          (if cfg.flush_all_streams then none else some [stream]) with
      | .error e => .error e
      | .ok fr => .ok { ps1 with
          records_to_load := fr.records_to_load
          row_count := fr.row_count
          flushed_state := fr.flushed_state
          events := ps1.events ++ fr.loads ++ [.checkpoint fr.flushed_state] }
    else .ok ps1
  match afterFlush with
  | .error e => .error e
  | .ok ps2 =>
    if cfg.primary_key_required ∧ kps.length = 0 then .error .protocolError
    else .ok { ps2 with
      key_properties := pySet ps2.key_properties stream kps
      records_to_load := pySet ps2.records_to_load stream []
      row_count := pySet ps2.row_count stream 0
      total_row_count := pySet ps2.total_row_count stream 0 }

/-- The `t == 'STATE'` branch: record the caller's state and, the first
time a truthy state is seen while `flushed_state` is still falsy, seed
`flushed_state` with a wholesale copy. -/
def stepState (ps : PState) (v : JVal) : Except PyErr PState :=
  .ok { ps with
    state := some v
    flushed_state := if optTruthy ps.flushed_state then ps.flushed_state else some v }

/-- One line of the `persist_lines` loop (`ACTIVATE_VERSION` only talks to
the warehouse under `hard_delete`, which is off here). -/
def stepMsg (cfg : TargetConfig) (ps : PState) : Msg → Except PyErr PState
  | .record stream record => stepRecord cfg ps stream record
  | .schema stream schema kps => stepSchema cfg ps stream schema kps
  | .activateVersion _ => .ok ps
  | .state v => stepState ps v

/-- `persist_lines(config, lines)`: the message loop, the final flush of any
remaining buffered rows (no `filter_streams`), and the final
`emit_state(copy.deepcopy(flushed_state))`. -/
def persistLinesModel (cfg : TargetConfig) (msgs : List Msg) :
    Except PyErr PState :=
  match msgs.foldlM (stepMsg cfg) initialPState with
  | .error e => .error e
  | .ok ps =>
    match (if 0 < (pyValues ps.row_count).sum then
        match flushStreamsModel ps.records_to_load ps.row_count ps.state
            ps.flushed_state none with
        | .error e => .error e
        | .ok fr => .ok { ps with
            records_to_load := fr.records_to_load
            row_count := fr.row_count
            flushed_state := fr.flushed_state
            events := ps.events ++ fr.loads }
      else .ok ps : Except PyErr PState) with
    | .error e => .error e
    | .ok ps2 => .ok { ps2 with events := ps2.events ++ [.checkpoint ps2.flushed_state] }

theorem exceptBind_ok {α β : Type} (a : α) (f : α → Except PyErr β) :
    ((Except.ok a : Except PyErr α) >>= f) = f a := rfl

theorem foldlM_except_inv {σ α : Type} (P : σ → Prop) (f : σ → α → Except PyErr σ)
    (hstep : ∀ b x b', P b → f b x = .ok b' → P b') :
    ∀ (l : List α) (b b' : σ), P b → l.foldlM f b = .ok b' → P b' := by
  intro l
  induction l with
  | nil =>
    intro b b' hb h
    rw [List.foldlM_nil] at h
    cases h
    exact hb
  | cons x xs ih =>
    intro b b' hb h
    rw [List.foldlM_cons] at h
    cases hfx : f b x with
    | error e =>
      rw [hfx] at h
      exact absurd h (by simp [Bind.bind, Except.bind])
    | ok b1 =>
      rw [hfx, exceptBind_ok] at h
      exact ih b1 b' (hstep b x b1 hb hfx) h

/-- The effective buffer key of a record: the primary-key string when
truthy, else the `'RID-{total_row_count}'` surrogate. -/
def pkKey (pk0 : Option String) (tot : Nat) : String :=
  match pk0 with
  | some str => if str = "" then "RID-" ++ toString tot else str
  | none => "RID-" ++ toString tot

/-- Characterization of a RECORD step that does not trigger a flush: the
record is buffered under its effective key (last write wins), and the
counters grow exactly when the key is new to the buffer. -/
theorem stepRecord_spec (cfg : TargetConfig) (ps : PState) (stream : String)
    (record : List (String × JVal)) (kp : List String) (tot rc : Nat)
    (buf : List (String × JVal)) (pk0 : Option String)
    (hsch : (pyGet ps.schemas stream).isNone = false)
    (hkp : pyGet ps.key_properties stream = some kp)
    (htot : pyGet ps.total_row_count stream = some tot)
    (hrc : pyGet ps.row_count stream = some rc)
    (hbuf : pyGet ps.records_to_load stream = some buf)
    (hpk : recordPrimaryKeyString kp cfg.data_flattening_max_level record = .ok pk0)
    (hnoflush : ¬ cfg.batch_size_rows ≤
      (if (pyGet buf (pkKey pk0 tot)).isNone then rc + 1 else rc)) :
    stepRecord cfg ps stream record = .ok { ps with
      records_to_load := pySet ps.records_to_load stream
        (pySet buf (pkKey pk0 tot) (.obj record))
      row_count := pySet ps.row_count stream
        (if (pyGet buf (pkKey pk0 tot)).isNone then rc + 1 else rc)
      total_row_count := pySet ps.total_row_count stream
        (if (pyGet buf (pkKey pk0 tot)).isNone then tot + 1 else tot) } := by
  unfold stepRecord
  rw [if_neg (by simp [hsch])]
  simp only [adjustTimestampsInRecord]
  simp only [hkp, hpk, htot, hrc, hbuf]
  simp only [pkKey] at hnoflush
  rw [if_neg hnoflush]
  simp only [pkKey]

/-- `flatten_record({'id': ''}, max_level=0)` is the record itself. -/
theorem flattenRecord_idEmpty :
    flattenRecord [("id", JVal.s "")] [] "__" 0 0 = [("id", JVal.s "")] := by
  rw [flattenRecord, flattenRecordItems_of_level_ge _ _ _ _ _ (le_refl 0)]
  have hk : flattenKey (safeColumnName "id") [] "__" = "id" := by
    rw [show safeColumnName "id" = "id" from by decide]
    rw [flattenKey_of_short _ _ _ (by rw [List.nil_append, stringIntercalate_singleton]; decide)]
    rw [List.nil_append, stringIntercalate_singleton]
  simp only [List.map_cons, List.map_nil, hk]
  rfl

/-- The primary-key string of `{'id': ''}` under key properties `['id']` is
the empty string — a falsy value. -/
theorem recordPrimaryKeyString_emptyId :
    recordPrimaryKeyString ["id"] 0 [("id", JVal.s "")] = .ok (some "") := by
  simp only [recordPrimaryKeyString, flattenRecord_idEmpty]
  rfl

/-- **C1** (counterexample): two RECORD messages whose derived primary-key
string is the same falsy value `''` (stream with `key_properties=['id']`,
both records `{'id': ''}`).  The buffered row counter reaches 2, not 1 (the
number of distinct primary-key strings seen), and the buffer holds both
records under the surrogates `RID-0`/`RID-1` instead of mapping the key to
the most recent record. -/
theorem c1_dedup_counterexample :
    recordPrimaryKeyString ["id"] 0 [("id", JVal.s "")] = .ok (some "") ∧
    ∃ ps : PState,
      List.foldlM (stepMsg ⟨100, false, true, 0⟩) initialPState
        [Msg.schema "a" (.obj []) ["id"],
         Msg.record "a" [("id", .s "")],
         Msg.record "a" [("id", .s "")]] = .ok ps ∧
      pyGet ps.records_to_load "a" =
        some [("RID-0", .obj [("id", .s "")]), ("RID-1", .obj [("id", .s "")])] ∧
      pyGet ps.row_count "a" = some 2 := by
  refine ⟨recordPrimaryKeyString_emptyId, ?_⟩
  have h1 : stepMsg ⟨100, false, true, 0⟩ initialPState
      (Msg.schema "a" (.obj []) ["id"]) =
      .ok ⟨none, none, [("a", .obj [])], [("a", ["id"])], [("a", [])],
        [("a", 0)], [("a", 0)], []⟩ := rfl
  have h2 : stepMsg ⟨100, false, true, 0⟩
      ⟨none, none, [("a", .obj [])], [("a", ["id"])], [("a", [])],
        [("a", 0)], [("a", 0)], []⟩
      (Msg.record "a" [("id", .s "")]) =
      .ok ⟨none, none, [("a", .obj [])], [("a", ["id"])],
        [("a", [("RID-0", .obj [("id", .s "")])])], [("a", 1)], [("a", 1)], []⟩ :=
    stepRecord_spec ⟨100, false, true, 0⟩ _ "a" [("id", .s "")] ["id"] 0 0 [] (some "")
      rfl rfl rfl rfl rfl recordPrimaryKeyString_emptyId (by decide)
  have h3 : stepMsg ⟨100, false, true, 0⟩
      ⟨none, none, [("a", .obj [])], [("a", ["id"])],
        [("a", [("RID-0", .obj [("id", .s "")])])], [("a", 1)], [("a", 1)], []⟩
      (Msg.record "a" [("id", .s "")]) =
      .ok ⟨none, none, [("a", .obj [])], [("a", ["id"])],
        [("a", [("RID-0", .obj [("id", .s "")]), ("RID-1", .obj [("id", .s "")])])],
        [("a", 2)], [("a", 2)], []⟩ :=
    stepRecord_spec ⟨100, false, true, 0⟩ _ "a" [("id", .s "")] ["id"] 1 1
      [("RID-0", .obj [("id", .s "")])] (some "")
      rfl rfl rfl rfl rfl recordPrimaryKeyString_emptyId (by decide)
  refine ⟨⟨none, none, [("a", .obj [])], [("a", ["id"])],
      [("a", [("RID-0", .obj [("id", .s "")]), ("RID-1", .obj [("id", .s "")])])],
      [("a", 2)], [("a", 2)], []⟩, ?_, rfl, rfl⟩
  rw [List.foldlM_cons, h1, exceptBind_ok, List.foldlM_cons, h2, exceptBind_ok,
    List.foldlM_cons, h3, exceptBind_ok, List.foldlM_nil]
  rfl

/-- The C1 counter invariant: every stream's buffered row counter equals the
size of its buffer (the number of distinct effective keys buffered since the
last reset). -/
def countInv (ps : PState) : Prop :=
  ∀ s, pyGetD ps.row_count s 0 = (pyGetD ps.records_to_load s []).length

theorem pySet_length_count (buf : List (String × JVal)) (key : String)
    (rec : JVal) (rc : Nat) (hrc : rc = buf.length) :
    (if (pyGet buf key).isNone then rc + 1 else rc) = (pySet buf key rec).length := by
  by_cases hk : (pyGet buf key).isNone
  · rw [if_pos hk, length_pySet_of_not_mem _ _ _ (by
      rw [← pyGet_eq_none_iff_not_mem_keys]
      exact Option.isNone_iff_eq_none.mp hk), hrc]
  · rw [if_neg hk, length_pySet_of_mem _ _ _ (by
      rw [← pyGet_isSome_iff_mem_keys]
      exact Option.isSome_iff_ne_none.mpr (by simpa using hk)), hrc]

theorem countInv_update (ps : PState) (stream : String)
    (bufNew : List (String × JVal)) (rcNew : Nat)
    (hinv : countInv ps) (hlen : rcNew = bufNew.length) :
    ∀ s, pyGetD (pySet ps.row_count stream rcNew) s 0 =
      (pyGetD (pySet ps.records_to_load stream bufNew) s []).length := by
  intro s
  by_cases hs : s = stream
  · subst hs
    simp [pyGetD, pyGet_pySet_self, hlen]
  · simp only [pyGetD]
    rw [pyGet_pySet_ne _ _ _ _ (Ne.symm hs), pyGet_pySet_ne _ _ _ _ (Ne.symm hs)]
    exact hinv s

theorem flushLoop_inv (st : Option JVal) (filt : Option (List String)) :
    ∀ (l : List String) (acc out : FlushOutcome),
    (∀ s, pyGetD acc.row_count s 0 = (pyGetD acc.records_to_load s []).length) →
    flushLoop st filt l acc = .ok out →
    ∀ s, pyGetD out.row_count s 0 = (pyGetD out.records_to_load s []).length := by
  intro l
  induction l with
  | nil =>
    intro acc out hinv h s
    simp only [flushLoop] at h
    cases h
    exact hinv s
  | cons x rest ih =>
    intro acc out hinv h s
    simp only [flushLoop] at h
    split at h
    · cases h
    · refine ih _ out ?_ h s
      intro t
      by_cases ht : t = x
      · subst ht
        simp [pyGetD, pyGet_pySet_self]
      · simp only [pyGetD]
        rw [pyGet_pySet_ne _ _ _ _ (Ne.symm ht), pyGet_pySet_ne _ _ _ _ (Ne.symm ht)]
        exact hinv t

theorem flushStreamsModel_inv (records : List (String × List (String × JVal)))
    (rc : List (String × Nat)) (st fl : Option JVal)
    (filt : Option (List String)) (out : FlushOutcome)
    (hinv : ∀ s, pyGetD rc s 0 = (pyGetD records s []).length)
    (h : flushStreamsModel records rc st fl filt = .ok out) :
    ∀ s, pyGetD out.row_count s 0 = (pyGetD out.records_to_load s []).length := by
  simp only [flushStreamsModel] at h
  split at h
  · cases h
  · split at h
    · cases h
    · cases h
      rename_i out0 hloop
      exact flushLoop_inv st filt _ _ out0 hinv hloop

theorem stepMsg_countInv (cfg : TargetConfig) (ps : PState) (m : Msg) (ps' : PState)
    (hinv : countInv ps) (h : stepMsg cfg ps m = .ok ps') : countInv ps' := by
  cases m with
  | state v =>
    simp only [stepMsg, stepState] at h
    cases h
    exact hinv
  | activateVersion s =>
    simp only [stepMsg] at h
    cases h
    exact hinv
  | record stream record =>
    simp only [stepMsg, stepRecord, adjustTimestampsInRecord] at h
    by_cases hsch : (pyGet ps.schemas stream).isNone = true
    · rw [if_pos hsch] at h
      cases h
    · rw [if_neg hsch] at h
      cases hkp : pyGet ps.key_properties stream with
      | none =>
        simp only [hkp] at h
        cases h
      | some kp =>
        simp only [hkp] at h
        cases hpk : recordPrimaryKeyString kp cfg.data_flattening_max_level record with
        | error e =>
          simp only [hpk] at h
          cases h
        | ok pk0 =>
          simp only [hpk] at h
          cases htot : pyGet ps.total_row_count stream with
          | none =>
            simp only [htot] at h
            cases h
          | some tot =>
            simp only [htot] at h
            cases hrc : pyGet ps.row_count stream with
            | none =>
              simp only [hrc] at h
              cases h
            | some rc =>
              simp only [hrc] at h
              cases hbuf : pyGet ps.records_to_load stream with
              | none =>
                simp only [hbuf] at h
                cases h
              | some buf =>
                simp only [hbuf] at h
                have hrcbuf : rc = buf.length := by
                  have h0 := hinv stream
                  simp only [pyGetD, hrc, hbuf] at h0
                  exact h0
                split at h
                · rename_i hnew
                  symm at h
                  split at h
                  · split at h
                    · cases h
                    · rename_i fr hflush
                      cases h
                      refine fun s => flushStreamsModel_inv _ _ _ _ _ fr
                        (countInv_update ps stream _ _ hinv ?_) hflush s
                      rw [length_pySet_of_not_mem _ _ _ (by
                        rw [← pyGet_eq_none_iff_not_mem_keys]
                        exact Option.isNone_iff_eq_none.mp hnew), hrcbuf]
                  · cases h
                    refine countInv_update ps stream _ _ hinv ?_
                    rw [length_pySet_of_not_mem _ _ _ (by
                      rw [← pyGet_eq_none_iff_not_mem_keys]
                      exact Option.isNone_iff_eq_none.mp hnew), hrcbuf]
                · rename_i hnew
                  symm at h
                  split at h
                  · split at h
                    · cases h
                    · rename_i fr hflush
                      cases h
                      refine fun s => flushStreamsModel_inv _ _ _ _ _ fr
                        (countInv_update ps stream _ _ hinv ?_) hflush s
                      rw [length_pySet_of_mem _ _ _ (by
                        rw [← pyGet_isSome_iff_mem_keys]
                        exact Option.isSome_iff_ne_none.mpr (by simpa using hnew)), hrcbuf]
                  · cases h
                    refine countInv_update ps stream _ _ hinv ?_
                    rw [length_pySet_of_mem _ _ _ (by
                      rw [← pyGet_isSome_iff_mem_keys]
                      exact Option.isSome_iff_ne_none.mpr (by simpa using hnew)), hrcbuf]
  | schema stream sch kps =>
    simp only [stepMsg, stepSchema] at h
    split at h
    · cases h
    · rename_i ps2 hps2
      have hinv2 : countInv ps2 := by
        split at hps2
        · split at hps2
          · cases hps2
          · cases hps2
            rename_i fr hflush
            exact fun s => flushStreamsModel_inv _ _ _ _ _ fr hinv hflush s
        · cases hps2
          exact hinv
      split at h
      · cases h
      · cases h
        exact countInv_update ps2 stream [] 0 hinv2 rfl

/-- **C1** (amended): (i) after any prefix of messages, every stream's
buffered row counter equals the number of records in its buffer — the
number of distinct *effective* keys (primary-key string when truthy, else a
fresh `RID-{total_row_count}` surrogate) seen since the stream's last
reset; (ii) a RECORD step that does not trigger a flush stores the record
under its effective key, overwriting any previous record with that key
(last-write-wins), and increments the counters exactly when the key is new
to the buffer.  Deduplication by primary-key string thus holds only for
records whose derived primary-key string is truthy; falsy key strings
(`None` or `''`) get per-record surrogates and are never deduplicated. -/
theorem c1_dedup_amended :
    (∀ (cfg : TargetConfig) (msgs : List Msg) (ps : PState),
      msgs.foldlM (stepMsg cfg) initialPState = .ok ps →
      ∀ s, pyGetD ps.row_count s 0 = (pyGetD ps.records_to_load s []).length) ∧
    (∀ (cfg : TargetConfig) (ps : PState) (stream : String)
      (record : List (String × JVal)) (kp : List String) (tot rc : Nat)
      (buf : List (String × JVal)) (pk0 : Option String),
      (pyGet ps.schemas stream).isNone = false →
      pyGet ps.key_properties stream = some kp →
      pyGet ps.total_row_count stream = some tot →
      pyGet ps.row_count stream = some rc →
      pyGet ps.records_to_load stream = some buf →
      recordPrimaryKeyString kp cfg.data_flattening_max_level record = .ok pk0 →
      ¬ cfg.batch_size_rows ≤
        (if (pyGet buf (pkKey pk0 tot)).isNone then rc + 1 else rc) →
      stepRecord cfg ps stream record = .ok { ps with
        records_to_load := pySet ps.records_to_load stream
          (pySet buf (pkKey pk0 tot) (.obj record))
        row_count := pySet ps.row_count stream
          (if (pyGet buf (pkKey pk0 tot)).isNone then rc + 1 else rc)
        total_row_count := pySet ps.total_row_count stream
          (if (pyGet buf (pkKey pk0 tot)).isNone then tot + 1 else tot) }) := by
  constructor
  · intro cfg msgs ps h s
    exact foldlM_except_inv countInv (stepMsg cfg)
      (fun b x b' hb hx => stepMsg_countInv cfg b x b' hb hx)
      msgs initialPState ps (fun t => rfl) h s
  · intro cfg ps stream record kp tot rc buf pk0 h1 h2 h3 h4 h5 h6 h7
    exact stepRecord_spec cfg ps stream record kp tot rc buf pk0 h1 h2 h3 h4 h5 h6 h7

/-- **C1** (witness): a one-record run where the counter equals the buffer
size, and a concrete non-flushing RECORD step buffered under the `RID-0`
surrogate. -/
theorem c1_dedup_amended_witness :
    (∃ ps : PState,
      List.foldlM (stepMsg ⟨10, false, false, 0⟩) initialPState
        [Msg.schema "a" (.obj []) [], Msg.record "a" [("x", .i 1)]] = .ok ps ∧
      pyGetD ps.row_count "a" 0 = (pyGetD ps.records_to_load "a" []).length) ∧
    stepRecord ⟨10, false, false, 0⟩
      ⟨none, none, [("a", .obj [])], [("a", [])], [("a", [])],
        [("a", 0)], [("a", 0)], []⟩ "a" [("x", .i 1)] =
      .ok ⟨none, none, [("a", .obj [])], [("a", [])],
        [("a", [("RID-0", .obj [("x", .i 1)])])], [("a", 1)], [("a", 1)], []⟩ := by
  constructor
  · refine ⟨⟨none, none, [("a", .obj [])], [("a", [])],
      [("a", [("RID-0", .obj [("x", .i 1)])])], [("a", 1)], [("a", 1)], []⟩, rfl, ?_⟩
    exact c1_dedup_amended.1 ⟨10, false, false, 0⟩
      [Msg.schema "a" (.obj []) [], Msg.record "a" [("x", .i 1)]] _ rfl "a"
  · exact c1_dedup_amended.2 ⟨10, false, false, 0⟩
      ⟨none, none, [("a", .obj [])], [("a", [])], [("a", [])],
        [("a", 0)], [("a", 0)], []⟩ "a" [("x", .i 1)] [] 0 0 [] none
      rfl rfl rfl rfl rfl rfl (by decide)

/-- **C2** (counterexample): the first STATE message seeds the emitted
checkpoint wholesale.  Run: SCHEMA a, SCHEMA b, RECORD a, STATE with
bookmarks `{a: 5, b: 0}`, then two RECORDs for b (batch size 2) flushing
only stream b.  The emitted checkpoint carries bookmark 5 for stream a even
though a's buffered row was never loaded: no `loaded a` event exists, and a
still holds one buffered row when the checkpoint is emitted. -/
theorem c2_checkpoint_counterexample :
    ∃ ps : PState,
      List.foldlM (stepMsg ⟨2, false, false, 0⟩) initialPState
        [Msg.schema "a" (.obj []) [], Msg.schema "b" (.obj []) [],
         Msg.record "a" [("x", .i 1)],
         Msg.state (.obj [("bookmarks", .obj [("a", .i 5), ("b", .i 0)])]),
         Msg.record "b" [("y", .i 1)], Msg.record "b" [("y", .i 2)]] = .ok ps ∧
      ps.events = [Event.loaded "b"
          [("RID-0", .obj [("y", .i 1)]), ("RID-1", .obj [("y", .i 2)])],
        Event.checkpoint (some (.obj [("bookmarks",
          .obj [("a", .i 5), ("b", .i 0)])]))] ∧
      bmLookup (some (.obj [("bookmarks", .obj [("a", .i 5), ("b", .i 0)])])) "a" =
        some (.i 5) ∧
      (∀ recs, Event.loaded "a" recs ∉ ps.events) ∧
      pyGetD ps.row_count "a" 0 = 1 := by
  refine ⟨⟨some (.obj [("bookmarks", .obj [("a", .i 5), ("b", .i 0)])]),
    some (.obj [("bookmarks", .obj [("a", .i 5), ("b", .i 0)])]),
    [("a", .obj []), ("b", .obj [])], [("a", []), ("b", [])],
    [("a", [("RID-0", .obj [("x", .i 1)])]), ("b", [])],
    [("a", 1), ("b", 0)], [("a", 1), ("b", 2)],
    [Event.loaded "b" [("RID-0", .obj [("y", .i 1)]), ("RID-1", .obj [("y", .i 2)])],
     Event.checkpoint (some (.obj [("bookmarks",
       .obj [("a", .i 5), ("b", .i 0)])]))]⟩, rfl, rfl, rfl, ?_, rfl⟩
  intro recs h
  simp at h

theorem copyBookmark_bm_ne (st fl : Option JVal) (s t : String) (fl' : Option JVal)
    (h : copyBookmark st fl s = .ok fl') (hts : t ≠ s) :
    bmLookup fl' t = bmLookup fl t := by
  cases st with
  | none =>
    simp only [copyBookmark] at h
    cases h
    rfl
  | some sv =>
    cases sv with
    | obj sf =>
      cases fl with
      | none =>
        simp only [copyBookmark] at h
        cases hbm : pyGetD sf "bookmarks" (.obj []) with
        | obj bmf =>
          simp only [hbm] at h
          by_cases hin : (pyGet bmf s).isSome = true
          · rw [if_pos hin] at h
            cases h
          · rw [if_neg hin] at h
            cases h
            rfl
        | null => simp only [hbm] at h; cases h
        | b x => simp only [hbm] at h; cases h
        | i n => simp only [hbm] at h; cases h
        | s str => simp only [hbm] at h; cases h
        | arr xs => simp only [hbm] at h; cases h
      | some flv =>
        cases flv with
        | obj ff =>
          simp only [copyBookmark] at h
          cases hbm : pyGetD sf "bookmarks" (.obj []) with
          | obj bmf =>
            simp only [hbm] at h
            by_cases hin : (pyGet bmf s).isSome = true
            · rw [if_pos hin] at h
              by_cases hffb : (pyGet ff "bookmarks").isSome = true
              · rw [if_pos hffb] at h
                cases hgot : pyGet ff "bookmarks" with
                | none => rw [hgot] at hffb; cases hffb
                | some bv =>
                  simp only [hgot] at h
                  cases bv with
                  | obj fbm =>
                    cases h
                    simp only [bmLookup, pyGet_pySet_self, hgot]
                    rw [pyGet_pySet_ne _ _ _ _ (Ne.symm hts)]
                  | null => cases h
                  | b x => cases h
                  | i n => cases h
                  | s str => cases h
                  | arr xs => cases h
              · rw [if_neg hffb] at h
                rw [pyGet_pySet_self] at h
                cases h
                simp only [bmLookup, pyGet_pySet_self]
                rw [pyGet_pySet_ne _ _ _ _ (Ne.symm hts)]
                have hnone : pyGet ff "bookmarks" = none := by
                  cases hval : pyGet ff "bookmarks" with
                  | none => rfl
                  | some bv => rw [hval] at hffb; simp at hffb
                rw [hnone]
                rfl
            · rw [if_neg hin] at h
              cases h
              rfl
          | null => simp only [hbm] at h; cases h
          | b x => simp only [hbm] at h; cases h
          | i n => simp only [hbm] at h; cases h
          | s str => simp only [hbm] at h; cases h
          | arr xs => simp only [hbm] at h; cases h
        | null =>
          simp only [copyBookmark] at h
          cases hbm : pyGetD sf "bookmarks" (.obj []) with
          | obj bmf =>
            simp only [hbm] at h
            by_cases hin : (pyGet bmf s).isSome = true
            · rw [if_pos hin] at h; cases h
            · rw [if_neg hin] at h; cases h; rfl
          | null => simp only [hbm] at h; cases h
          | b x => simp only [hbm] at h; cases h
          | i n => simp only [hbm] at h; cases h
          | s str => simp only [hbm] at h; cases h
          | arr xs => simp only [hbm] at h; cases h
        | b x0 =>
          simp only [copyBookmark] at h
          cases hbm : pyGetD sf "bookmarks" (.obj []) with
          | obj bmf =>
            simp only [hbm] at h
            by_cases hin : (pyGet bmf s).isSome = true
            · rw [if_pos hin] at h; cases h
            · rw [if_neg hin] at h; cases h; rfl
          | null => simp only [hbm] at h; cases h
          | b x => simp only [hbm] at h; cases h
          | i n => simp only [hbm] at h; cases h
          | s str => simp only [hbm] at h; cases h
          | arr xs => simp only [hbm] at h; cases h
        | i n0 =>
          simp only [copyBookmark] at h
          cases hbm : pyGetD sf "bookmarks" (.obj []) with
          | obj bmf =>
            simp only [hbm] at h
            by_cases hin : (pyGet bmf s).isSome = true
            · rw [if_pos hin] at h; cases h
            · rw [if_neg hin] at h; cases h; rfl
          | null => simp only [hbm] at h; cases h
          | b x => simp only [hbm] at h; cases h
          | i n => simp only [hbm] at h; cases h
          | s str => simp only [hbm] at h; cases h
          | arr xs => simp only [hbm] at h; cases h
        | s str0 =>
          simp only [copyBookmark] at h
          cases hbm : pyGetD sf "bookmarks" (.obj []) with
          | obj bmf =>
            simp only [hbm] at h
            by_cases hin : (pyGet bmf s).isSome = true
            · rw [if_pos hin] at h; cases h
            · rw [if_neg hin] at h; cases h; rfl
          | null => simp only [hbm] at h; cases h
          | b x => simp only [hbm] at h; cases h
          | i n => simp only [hbm] at h; cases h
          | s str => simp only [hbm] at h; cases h
          | arr xs => simp only [hbm] at h; cases h
        | arr xs0 =>
          simp only [copyBookmark] at h
          cases hbm : pyGetD sf "bookmarks" (.obj []) with
          | obj bmf =>
            simp only [hbm] at h
            by_cases hin : (pyGet bmf s).isSome = true
            · rw [if_pos hin] at h; cases h
            · rw [if_neg hin] at h; cases h; rfl
          | null => simp only [hbm] at h; cases h
          | b x => simp only [hbm] at h; cases h
          | i n => simp only [hbm] at h; cases h
          | s str => simp only [hbm] at h; cases h
          | arr xs => simp only [hbm] at h; cases h
    | null => simp only [copyBookmark] at h; cases h
    | b x => simp only [copyBookmark] at h; cases h
    | i n => simp only [copyBookmark] at h; cases h
    | s str => simp only [copyBookmark] at h; cases h
    | arr xs => simp only [copyBookmark] at h; cases h

theorem copyBookmark_bm_self (st fl fl' : Option JVal) (s : String) (v : JVal)
    (h : copyBookmark st fl s = .ok fl') (hst : bmLookup st s = some v) :
    bmLookup fl' s = some v := by
  cases st with
  | none => cases hst
  | some sv =>
    cases sv with
    | obj sf =>
      simp only [bmLookup] at hst
      cases hsb : pyGet sf "bookmarks" with
      | none =>
        simp only [hsb] at hst
        cases hst
      | some bv =>
        simp only [hsb] at hst
        cases bv with
        | obj bmf =>
          simp only [] at hst
          have hbm : pyGetD sf "bookmarks" (.obj []) = .obj bmf := by
            simp [pyGetD, hsb]
          cases fl with
          | none =>
            simp only [copyBookmark, hbm] at h
            rw [if_pos (by rw [hst]; rfl)] at h
            cases h
          | some flv =>
            cases flv with
            | obj ff =>
              simp only [copyBookmark, hbm] at h
              rw [if_pos (by rw [hst]; rfl)] at h
              by_cases hffb : (pyGet ff "bookmarks").isSome = true
              · rw [if_pos hffb] at h
                cases hgot : pyGet ff "bookmarks" with
                | none => rw [hgot] at hffb; cases hffb
                | some bv2 =>
                  simp only [hgot] at h
                  cases bv2 with
                  | obj fbm =>
                    cases h
                    simp only [bmLookup, pyGet_pySet_self]
                    rw [show pyGetD bmf s JVal.null = v from by simp [pyGetD, hst]]
                  | null => cases h
                  | b x => cases h
                  | i n => cases h
                  | s str => cases h
                  | arr xs => cases h
              · rw [if_neg hffb] at h
                rw [pyGet_pySet_self] at h
                cases h
                simp only [bmLookup, pyGet_pySet_self]
                rw [show pyGetD bmf s JVal.null = v from by simp [pyGetD, hst]]
            | null =>
              simp only [copyBookmark, hbm] at h
              rw [if_pos (by rw [hst]; rfl)] at h
              cases h
            | b x =>
              simp only [copyBookmark, hbm] at h
              rw [if_pos (by rw [hst]; rfl)] at h
              cases h
            | i n =>
              simp only [copyBookmark, hbm] at h
              rw [if_pos (by rw [hst]; rfl)] at h
              cases h
            | s str =>
              simp only [copyBookmark, hbm] at h
              rw [if_pos (by rw [hst]; rfl)] at h
              cases h
            | arr xs =>
              simp only [copyBookmark, hbm] at h
              rw [if_pos (by rw [hst]; rfl)] at h
              cases h
        | null => simp only [] at hst; cases hst
        | b x => simp only [] at hst; cases hst
        | i n => simp only [] at hst; cases hst
        | s str => simp only [] at hst; cases hst
        | arr xs => simp only [] at hst; cases hst
    | null => cases hst
    | b x => cases hst
    | i n => cases hst
    | s str => cases hst
    | arr xs => cases hst

theorem flushLoop_bm_ne (st : Option JVal) (fs : List String)
    (hfs : fs.isEmpty = false) :
    ∀ (l : List String) (acc out : FlushOutcome),
    flushLoop st (some fs) l acc = .ok out →
    ∀ t, t ∉ l → bmLookup out.flushed_state t = bmLookup acc.flushed_state t := by
  intro l
  induction l with
  | nil =>
    intro acc out h t ht
    simp only [flushLoop] at h
    cases h
    rfl
  | cons x rest ih =>
    intro acc out h t ht
    simp only [flushLoop, hfs] at h
    rw [if_neg (by simp)] at h
    cases hc : copyBookmark st acc.flushed_state x with
    | error e => rw [hc] at h; cases h
    | ok fl1 =>
      rw [hc] at h
      simp only [] at h
      rw [ih _ out h t (fun hmem => ht (List.mem_cons_of_mem x hmem))]
      exact copyBookmark_bm_ne st acc.flushed_state x t fl1 hc
        (fun heq => ht (heq ▸ List.mem_cons_self x rest))

theorem flushLoop_bm_mem (st : Option JVal) (fs : List String)
    (hfs : fs.isEmpty = false) :
    ∀ (l : List String) (acc out : FlushOutcome),
    flushLoop st (some fs) l acc = .ok out → l.Nodup →
    ∀ s ∈ l, ∀ v, bmLookup st s = some v →
      bmLookup out.flushed_state s = some v := by
  intro l
  induction l with
  | nil =>
    intro acc out h hnd s hs
    cases hs
  | cons x rest ih =>
    intro acc out h hnd s hs v hv
    simp only [flushLoop, hfs] at h
    rw [if_neg (by simp)] at h
    cases hc : copyBookmark st acc.flushed_state x with
    | error e => rw [hc] at h; cases h
    | ok fl1 =>
      rw [hc] at h
      simp only [] at h
      rcases List.mem_cons.mp hs with heq | hmem
      · subst heq
        rw [flushLoop_bm_ne st fs hfs rest _ out h s
          (by simpa using (List.nodup_cons.mp hnd).1)]
        exact copyBookmark_bm_self st acc.flushed_state fl1 s v hc hv
      · exact ih _ out h (List.nodup_cons.mp hnd).2 s hmem v hv

theorem flushLoop_wholesale (st : Option JVal) :
    ∀ (l : List String) (acc out : FlushOutcome), l ≠ [] →
    flushLoop st none l acc = .ok out → out.flushed_state = st := by
  intro l
  induction l with
  | nil => intro acc out hne; exact absurd rfl hne
  | cons x rest ih =>
    intro acc out hne h
    simp only [flushLoop] at h
    cases hrest : rest with
    | nil =>
      subst hrest
      simp only [flushLoop] at h
      cases h
      rfl
    | cons y ys =>
      subst hrest
      exact ih _ out (by simp) h

/-- The bookmark behaviour of a filtered flush round: bookmarks of streams
outside the selection are carried over unchanged, and each selected
stream's bookmark is copied from the latest caller-supplied state. -/
theorem flushStreamsModel_filtered_bm
    (records : List (String × List (String × JVal)))
    (rc : List (String × Nat)) (st fl : Option JVal) (fs : List String)
    (out : FlushOutcome) (hne : fs ≠ [])
    (h : flushStreamsModel records rc st fl (some fs) = .ok out) :
    (∀ s, s ∉ fs → bmLookup out.flushed_state s = bmLookup fl s) ∧
    (fs.Nodup → ∀ s ∈ fs, ∀ v, bmLookup st s = some v →
      bmLookup out.flushed_state s = some v) := by
  have hfs : fs.isEmpty = false := by
    cases fs with
    | nil => exact absurd rfl hne
    | cons a l => rfl
  simp only [flushStreamsModel, hfs] at h
  rw [if_neg (by simp)] at h
  split at h
  · cases h
  · split at h
    · cases h
    · cases h
      rename_i out0 hloop
      constructor
      · intro s hs
        exact flushLoop_bm_ne st fs hfs fs _ out0 hloop s hs
      · intro hnd s hs v hv
        exact flushLoop_bm_mem st fs hfs fs _ out0 hloop hnd s hs v hv

/-- A flush round without `filter_streams` replaces the checkpoint value
wholesale with the latest caller-supplied state (provided at least one
stream is buffered). -/
theorem flushStreamsModel_wholesale_bm
    (records : List (String × List (String × JVal)))
    (rc : List (String × Nat)) (st fl : Option JVal) (out : FlushOutcome)
    (hne : pyKeys records ≠ [])
    (h : flushStreamsModel records rc st fl none = .ok out) :
    out.flushed_state = st := by
  simp only [flushStreamsModel] at h
  split at h
  · cases h
  · split at h
    · cases h
    · cases h
      rename_i out0 hloop
      exact flushLoop_wholesale st (pyKeys records) _ out0 hne hloop

/-- **C2** (amended): how the emitted checkpoint value (`flushed_state`)
actually evolves.  (i) A STATE message records the caller's state and, when
`flushed_state` is still falsy, seeds it wholesale — including the bookmarks
of streams whose buffered rows have never been flushed.  (ii) A flush round
with a non-empty `filter_streams` copies into the checkpoint exactly the
selected streams' bookmarks from the latest caller-supplied state;
unselected streams retain their previously recorded bookmarks.  (iii) A
flush round without `filter_streams` (flush-all or the final flush)
replaces the checkpoint wholesale with the latest state.  The spec's
invariant — a bookmark for S advances only at or after the flush that
applied S's buffered rows — holds for the copies of kind (ii) but is
violated by the wholesale seeding (i), which can emit a bookmark for a
stream with un-flushed buffered rows. -/
theorem c2_checkpoint_amended :
    (∀ (cfg : TargetConfig) (ps : PState) (v : JVal),
      stepMsg cfg ps (.state v) = .ok { ps with
        state := some v
        flushed_state := if optTruthy ps.flushed_state then ps.flushed_state
                         else some v }) ∧
    (∀ (records : List (String × List (String × JVal)))
      (rc : List (String × Nat)) (st fl : Option JVal) (fs : List String)
      (out : FlushOutcome), fs ≠ [] →
      flushStreamsModel records rc st fl (some fs) = .ok out →
      (∀ s, s ∉ fs → bmLookup out.flushed_state s = bmLookup fl s) ∧
      (fs.Nodup → ∀ s ∈ fs, ∀ v, bmLookup st s = some v →
        bmLookup out.flushed_state s = some v)) ∧
    (∀ (records : List (String × List (String × JVal)))
      (rc : List (String × Nat)) (st fl : Option JVal) (out : FlushOutcome),
      pyKeys records ≠ [] →
      flushStreamsModel records rc st fl none = .ok out →
      out.flushed_state = st) :=
  ⟨fun _ _ _ => rfl,
   fun records rc st fl fs out hne h =>
     flushStreamsModel_filtered_bm records rc st fl fs out hne h,
   fun records rc st fl out hne h =>
     flushStreamsModel_wholesale_bm records rc st fl out hne h⟩

/-- **C2** (witness): a first STATE seeds the checkpoint; a filtered flush
of stream `a` copies `a`'s bookmark from the latest state (7) while `b`
keeps its previously recorded bookmark (2); an unfiltered flush replaces
the checkpoint wholesale. -/
theorem c2_checkpoint_amended_witness :
    stepMsg ⟨1, false, false, 0⟩ initialPState
      (.state (.obj [("bookmarks", .obj [("a", .i 1)])])) =
      .ok { initialPState with
        state := some (.obj [("bookmarks", .obj [("a", .i 1)])])
        flushed_state := if optTruthy initialPState.flushed_state then
            initialPState.flushed_state
          else some (.obj [("bookmarks", .obj [("a", .i 1)])]) } ∧
    (∃ out : FlushOutcome,
      flushStreamsModel [("a", [("k", .obj [])]), ("b", [])]
        [("a", 1), ("b", 0)]
        (some (.obj [("bookmarks", .obj [("a", .i 7), ("b", .i 3)])]))
        (some (.obj [("bookmarks", .obj [("a", .i 1), ("b", .i 2)])]))
        (some ["a"]) = .ok out ∧
      bmLookup out.flushed_state "b" =
        bmLookup (some (.obj [("bookmarks", .obj [("a", .i 1), ("b", .i 2)])])) "b" ∧
      bmLookup out.flushed_state "a" = some (.i 7)) ∧
    (∃ out2 : FlushOutcome,
      flushStreamsModel [("a", [("k", .obj [])])] [("a", 1)]
        (some (.obj [("bookmarks", .obj [("a", .i 9)])])) none none = .ok out2 ∧
      out2.flushed_state = some (.obj [("bookmarks", .obj [("a", .i 9)])])) := by
  refine ⟨c2_checkpoint_amended.1 ⟨1, false, false, 0⟩ initialPState
      (.obj [("bookmarks", .obj [("a", .i 1)])]),
    ⟨⟨[("a", []), ("b", [])], [("a", 0), ("b", 0)],
      some (.obj [("bookmarks", .obj [("a", .i 7), ("b", .i 2)])]),
      [Event.loaded "a" [("k", .obj [])]]⟩, rfl, ?_, ?_⟩,
    ⟨⟨[("a", [])], [("a", 0)],
      some (.obj [("bookmarks", .obj [("a", .i 9)])]),
      [Event.loaded "a" [("k", .obj [])]]⟩, rfl, ?_⟩⟩
  · exact (c2_checkpoint_amended.2.1 [("a", [("k", .obj [])]), ("b", [])]
      [("a", 1), ("b", 0)]
      (some (.obj [("bookmarks", .obj [("a", .i 7), ("b", .i 3)])]))
      (some (.obj [("bookmarks", .obj [("a", .i 1), ("b", .i 2)])]))
      ["a"] _ (by simp) rfl).1 "b" (by simp)
  · exact (c2_checkpoint_amended.2.1 [("a", [("k", .obj [])]), ("b", [])]
      [("a", 1), ("b", 0)]
      (some (.obj [("bookmarks", .obj [("a", .i 7), ("b", .i 3)])]))
      (some (.obj [("bookmarks", .obj [("a", .i 1), ("b", .i 2)])]))
      ["a"] _ (by simp) rfl).2 (by simp) "a" (by simp) (.i 7) rfl
  · exact c2_checkpoint_amended.2.2 [("a", [("k", .obj [])])] [("a", 1)]
      (some (.obj [("bookmarks", .obj [("a", .i 9)])])) none _ (by simp) rfl

end TargetBigquery
